import Mathlib

/-! # dolt: the dolt_schemas system table and the key-spec parser

A shallow embedding of `go/libraries/doltcore/sqle/schema_table.go`:
`GetOrCreateDoltSchemasTable`, the two migrations `migrateV1SchemasTableToV3` and
`migrateV2SchemasTableToV3`, and `fragFromSchemasTable`; of `TagsCmd.Exec` of
`go/cmd/dolt/commands/schcmds/tags.go`; and a model of the key-spec parser
`cli.ParseKeyValues`, whose test is `go/cmd/dolt/cli/arg_helpers_test.go`.

The Go functions talk to the database through methods whose bodies live in other
packages (`Database.GetRoot`, `Database.DropTable`, the row inserter, the noms row
codec, the index lookup).  Those collaborators are the fields of the structure
`Database`; the functions of `schema_table.go` are translated once, over an arbitrary
`Database`.  Go's `(value, err)` returns become `Except Err _`; a method that can both
fail and change the working root returns `Option Err × σ` (the error, if any, and the
state it leaves behind).  `traced db` is `db` with a log of the state-changing calls;
`memDb` is an executable in-memory `Database` on which the functions are run.
-/

set_option autoImplicit false

namespace Dolt

/-! ## Values and errors -/

/-- The errors the embedded functions can return.  `eof` is the sentinel `io.EOF`;
`tableNotFound` is `sql.ErrTableNotFound.New(name)`; `noPrimaryIndex` is the
`fmt.Errorf("could not find primary key index on system table ...")` of
`fragFromSchemasTable`; `sliceBounds` is the run-time abort of a slice expression
whose bound exceeds the slice; `unknownTag` and `malformedKeySpec` are the
`UnknownTagError` and `MalformedKeySpecError` of the key-spec parser; `other` is any error
produced by a collaborator. -/
inductive Err where
  | eof
  | tableNotFound (name : String)
  | noPrimaryIndex (table : String)
  | sliceBounds
  | unknownTag (tag : Nat)
  | malformedKeySpec (token : String)
  | other (msg : String)
  deriving DecidableEq, Repr

/-- A field of a `sql.Row`: Go's `nil`, a `string`, an `int64`, or a `time.Time`
given as `time.Unix(sec, nsec).UTC()`. -/
inductive Value where
  | null
  | str (s : String)
  | int (i : Int)
  | time (sec nsec : Int)
  deriving DecidableEq, Repr

/-- The Go expression `time.Unix(0, 0).UTC()`. -/
def epoch : Value := Value.time 0 0

namespace sql

/-- The column types of go-mysql-server that occur in the dolt_schemas layouts. -/
inductive SqlType where
  | Text
  | Int64
  | Timestamp
  deriving DecidableEq, Repr

/-- A `sql.Column`, with the fields the tests of `schema_table.go` set (`Type_` is the
Go field `Type`). -/
structure Column where
  Name : String
  Type_ : SqlType
  Source : String
  PrimaryKey : Bool
  deriving DecidableEq, Repr

/-- A `sql.Schema`. -/
abbrev Schema := List Column

/-- A `sql.Row`. -/
abbrev Row := List Value

end sql

namespace schema

/-- The noms kinds used by the columns of dolt_schemas. -/
inductive NomsKind where
  | StringKind
  | IntKind
  | TimestampKind
  deriving DecidableEq, Repr

/-- A `schema.Column` as built by `schema.NewColumn(name, tag, kind, partOfPK, constraints...)`;
`NotNull` records whether a `schema.NotNullConstraint{}` was passed. -/
structure Column where
  Name : String
  Tag : Nat
  Kind : NomsKind
  IsPartOfPK : Bool
  NotNull : Bool
  deriving DecidableEq, Repr

/-- The call `schema.NewColumn(name, tag, kind, partOfPK)` without constraints. -/
def NewColumn (name : String) (tag : Nat) (kind : NomsKind) (partOfPK : Bool) : Column :=
  ⟨name, tag, kind, partOfPK, false⟩

/-- The call `schema.NewColumn(name, tag, kind, partOfPK, schema.NotNullConstraint{})`. -/
def NewColumnNotNull (name : String) (tag : Nat) (kind : NomsKind) (partOfPK : Bool) : Column :=
  ⟨name, tag, kind, partOfPK, true⟩

/-- A `schema.Schema`: its column collection, in declared order. -/
abbrev Schema := List Column

end schema

namespace doltdb

/-- The constant `doltdb.SchemasTableName`; `schema_table.go` spells it out in
`sql.ErrTableNotFound.New("dolt_schemas")`. -/
def SchemasTableName : String := "dolt_schemas"

/-- Modelled from the spec: the constant `doltdb.SchemasTablesTypeCol` (package `doltdb`
is not among the source files); the current layout names its first column `type`. -/
def SchemasTablesTypeCol : String := "type"

/-- Modelled from the spec: the constant `doltdb.SchemasTablesNameCol`. -/
def SchemasTablesNameCol : String := "name"

/-- Modelled from the spec: the constant `doltdb.SchemasTablesFragmentCol`. -/
def SchemasTablesFragmentCol : String := "fragment"

/-- Modelled from the spec: the constant `doltdb.SchemasTablesIdCol`, the surrogate key
of the v2 layout. -/
def SchemasTablesIdCol : String := "id"

/-- Modelled from the spec: the constant `doltdb.SchemasTablesCreatedAtCol`. -/
def SchemasTablesCreatedAtCol : String := "created_at"

/-- Modelled from the spec: the constant `doltdb.SchemasTablesModifiedAtCol`. -/
def SchemasTablesModifiedAtCol : String := "modified_at"

/-- Modelled from the spec: the constant `doltdb.SchemasTablesMetadataCol`. -/
def SchemasTablesMetadataCol : String := "metadata"

end doltdb

namespace schema

/-- Modelled from the spec: the tag constants `schema.DoltSchemas*Tag` (package `schema`
is not among the source files).  The spec says only that each column of the current layout
owns a dedicated, stable tag; the six numbers below stand for those six distinct tags. -/
def DoltSchemasTypeTag : Nat := 1

/-- Modelled from the spec: see `DoltSchemasTypeTag`. -/
def DoltSchemasNameTag : Nat := 2

/-- Modelled from the spec: see `DoltSchemasTypeTag`. -/
def DoltSchemasFragmentTag : Nat := 3

/-- Modelled from the spec: see `DoltSchemasTypeTag`. -/
def DoltSchemasCreatedAtTag : Nat := 4

/-- Modelled from the spec: see `DoltSchemasTypeTag`. -/
def DoltSchemasModifiedAtTag : Nat := 5

/-- Modelled from the spec: see `DoltSchemasTypeTag`. -/
def DoltSchemasMetadataTag : Nat := 6

end schema

/-! ## The collaborators of `schema_table.go` -/

/-- The methods `schema_table.go` calls on the database, on a `*WritableDoltTable` and on
the noms row codec.  `σ` is the state of the database (its working root and whatever else
its session holds), `ρ` a `*doltdb.RootValue`, `τ` a `*WritableDoltTable`, `ε` a stored
`(key, value)` tuple pair, `δ` a decoded `row.Row`.

* `GetRoot`, `GetTableInsensitiveWithRoot` read the state; the latter returns `none`
  for `found = false`.
* `createDoltTable`, `DropTable` may fail and may change the state.
* `Schema` is `tbl.Schema()`.
* `GetRowData` is `schemasTable.table.GetRowData(ctx)`, the stored pairs in the order
  `IterAll` visits them.  The handle is a pointer and its field `table` is read when the
  call is made, so the result depends on the state.
* `FromNoms` is `row.FromNoms(schemasTable.sch, key, val)` and `DoltRowToSqlRow` is
  `sqlutil.DoltRowToSqlRow(dRow, schemasTable.sch)`.
* `Inserter` opens the row inserter of a table; `Insert` and `Close` are its methods. -/
structure Database (σ ρ τ ε δ : Type) where
  GetRoot : σ → Except Err ρ
  GetTableInsensitiveWithRoot : σ → ρ → String → Except Err (Option τ)
  createDoltTable : σ → String → ρ → schema.Schema → Option Err × σ
  DropTable : σ → String → Option Err × σ
  Schema : τ → sql.Schema
  GetRowData : σ → τ → Except Err (List ε)
  FromNoms : τ → ε → Except Err δ
  DoltRowToSqlRow : τ → δ → Except Err sql.Row
  Inserter : σ → τ → σ
  Insert : σ → τ → sql.Row → Option Err × σ
  Close : σ → τ → Option Err × σ

section Embedding

variable {σ ρ τ ε δ : Type}

/-- The fixed dolt schema for the dolt_schemas table (`SchemasTableSchema`). -/
def SchemasTableSchema : schema.Schema :=
  [ schema.NewColumnNotNull doltdb.SchemasTablesTypeCol schema.DoltSchemasTypeTag
      schema.NomsKind.StringKind true,
    schema.NewColumnNotNull doltdb.SchemasTablesNameCol schema.DoltSchemasNameTag
      schema.NomsKind.StringKind true,
    schema.NewColumn doltdb.SchemasTablesFragmentCol schema.DoltSchemasFragmentTag
      schema.NomsKind.StringKind false,
    schema.NewColumn doltdb.SchemasTablesCreatedAtCol schema.DoltSchemasCreatedAtTag
      schema.NomsKind.TimestampKind false,
    schema.NewColumn doltdb.SchemasTablesModifiedAtCol schema.DoltSchemasModifiedAtTag
      schema.NomsKind.TimestampKind false,
    schema.NewColumn doltdb.SchemasTablesMetadataCol schema.DoltSchemasMetadataTag
      schema.NomsKind.StringKind false ]

/-- The method `IterAll` of the row data: the callback is run on the stored pairs in
order and the iteration stops at the first error, which it returns.  The rows the Go
callbacks append to the captured `rowsToAdd` are threaded through as `acc`. -/
def IterAll {α : Type} (cb : ε → α → Except Err α) : List ε → α → Except Err α
  | [], acc => Except.ok acc
  | e :: es, acc =>
    match cb e acc with
    | Except.error err => Except.error err
    | Except.ok acc1 => IterAll cb es acc1

/-- The first two statements of both migration callbacks: `row.FromNoms` followed by
`sqlutil.DoltRowToSqlRow`, each returning its error to `IterAll`. -/
def decodeRow (db : Database σ ρ τ ε δ) (schemasTable : τ) (e : ε) : Except Err sql.Row :=
  match db.FromNoms schemasTable e with
  | Except.error err => Except.error err
  | Except.ok dRow =>
    match db.DoltRowToSqlRow schemasTable dRow with
    | Except.error err => Except.error err
    | Except.ok sqlRow => Except.ok sqlRow

/-- The callback of `migrateV1SchemasTableToV3`:
`sqlRow = append(sqlRow, time.Unix(0, 0).UTC(), time.Unix(0, 0).UTC(), "")` and
`rowsToAdd = append(rowsToAdd, sqlRow)`. -/
def migrateV1Callback (db : Database σ ρ τ ε δ) (schemasTable : τ) (e : ε)
    (rowsToAdd : List sql.Row) : Except Err (List sql.Row) :=
  match decodeRow db schemasTable e with
  | Except.error err => Except.error err
  | Except.ok sqlRow => Except.ok (rowsToAdd ++ [sqlRow ++ [epoch, epoch, Value.str ""]])

/-- The callback of `migrateV2SchemasTableToV3`:
`sqlRow = append(sqlRow[:3], time.Unix(0, 0).UTC(), time.Unix(0, 0).UTC(), "")`.
Go bounds `sqlRow[:3]` by the capacity of the slice.  A decoded row is taken to have no
spare capacity (one slot per column is allocated for it), so the slice expression is out
of range exactly when the row has fewer than three fields.  Go then panics; the panic,
which leaves `GetOrCreateDoltSchemasTable` before any state-changing call, is recorded
as the error `sliceBounds`.  A row with fewer than three fields and spare capacity is
outside this embedding.  The counter `id` of the Go function is incremented and never
read. -/
def migrateV2Callback (db : Database σ ρ τ ε δ) (schemasTable : τ) (e : ε)
    (rowsToAdd : List sql.Row) : Except Err (List sql.Row) :=
  match decodeRow db schemasTable e with
  | Except.error err => Except.error err
  | Except.ok sqlRow =>
    if sqlRow.length < 3 then Except.error Err.sliceBounds
    else Except.ok (rowsToAdd ++ [sqlRow.take 3 ++ [epoch, epoch, Value.str ""]])

/-- The part common to both migrations after the rows were collected: `db.DropTable`
then `db.GetRoot` (lines 184-192 and 230-238). -/
def dropAndReload (db : Database σ ρ τ ε δ) (rowsToAdd : List sql.Row) (s : σ) :
    Except Err (ρ × List sql.Row) × σ :=
  match db.DropTable s doltdb.SchemasTableName with
  | (some err, s1) => (Except.error err, s1)
  | (none, s1) =>
    match db.GetRoot s1 with
    | Except.error err => (Except.error err, s1)
    | Except.ok root => (Except.ok (root, rowsToAdd), s1)

/-- The function `migrateV1SchemasTableToV3`.  The error branch carries neither a root nor
rows: the Go function returns `nil, nil, err` there.  The parameter `root` is overwritten
before it is read, as in the source. -/
def migrateV1SchemasTableToV3 (db : Database σ ρ τ ε δ) (_root : ρ) (schemasTable : τ)
    (s : σ) : Except Err (ρ × List sql.Row) × σ :=
  match db.GetRowData s schemasTable with
  | Except.error err => (Except.error err, s)
  | Except.ok rowData =>
    match IterAll (migrateV1Callback db schemasTable) rowData [] with
    | Except.error err => (Except.error err, s)
    | Except.ok rowsToAdd => dropAndReload db rowsToAdd s

/-- The function `migrateV2SchemasTableToV3`. -/
def migrateV2SchemasTableToV3 (db : Database σ ρ τ ε δ) (_root : ρ) (schemasTable : τ)
    (s : σ) : Except Err (ρ × List sql.Row) × σ :=
  match db.GetRowData s schemasTable with
  | Except.error err => (Except.error err, s)
  | Except.ok rowData =>
    match IterAll (migrateV2Callback db schemasTable) rowData [] with
    | Except.error err => (Except.error err, s)
    | Except.ok rowsToAdd => dropAndReload db rowsToAdd s

/-- The loop `for _, sqlRow := range rowsToAdd` of `GetOrCreateDoltSchemasTable`: rows are
inserted in order and the first failing `Insert` ends the loop with its error. -/
def insertRows (db : Database σ ρ τ ε δ) (tbl : τ) : List sql.Row → σ → Option Err × σ
  | [], s => (none, s)
  | sqlRow :: rest, s =>
    match db.Insert s tbl sqlRow with
    | (some err, s1) => (some err, s1)
    | (none, s1) => insertRows db tbl rest s1

/-- The function literal of lines 128-143: open the inserter, run the loop, and in the
deferred function close the inserter, keeping the error of the loop when there is one
and the error of `Close` otherwise. -/
def bulkInsert (db : Database σ ρ τ ε δ) (tbl : τ) (rowsToAdd : List sql.Row) (s : σ) :
    Option Err × σ :=
  match insertRows db tbl rowsToAdd (db.Inserter s tbl) with
  | (retErr, s1) =>
    match db.Close s1 tbl with
    | (err, s2) =>
      match retErr with
      | none => (err, s2)
      | some e => (some e, s2)

/-- Lines 99-148 of `GetOrCreateDoltSchemasTable`: create the table with the current
schema in `root`, look it up (twice, as the source does), bulk-load `rowsToAdd` when
there are any, and return the handle that was looked up. -/
def createAndLoad (db : Database σ ρ τ ε δ) (root : ρ) (rowsToAdd : List sql.Row) (s : σ) :
    Except Err τ × σ :=
  match db.createDoltTable s doltdb.SchemasTableName root SchemasTableSchema with
  | (some err, s1) => (Except.error err, s1)
  | (none, s1) =>
    match db.GetRoot s1 with
    | Except.error err => (Except.error err, s1)
    | Except.ok root1 =>
      match db.GetTableInsensitiveWithRoot s1 root1 doltdb.SchemasTableName with
      | Except.error err => (Except.error err, s1)
      | Except.ok none => (Except.error (Err.tableNotFound "dolt_schemas"), s1)
      | Except.ok (some _) =>
        match db.GetRoot s1 with
        | Except.error err => (Except.error err, s1)
        | Except.ok root2 =>
          match db.GetTableInsensitiveWithRoot s1 root2 doltdb.SchemasTableName with
          | Except.error err => (Except.error err, s1)
          | Except.ok none => (Except.error (Err.tableNotFound "dolt_schemas"), s1)
          | Except.ok (some tbl) =>
            if rowsToAdd.length ≠ 0 then
              match bulkInsert db tbl rowsToAdd s1 with
              | (some err, s2) => (Except.error err, s2)
              | (none, s2) => (Except.ok tbl, s2)
            else (Except.ok tbl, s1)

/-- What both legacy branches of `GetOrCreateDoltSchemasTable` do with the result of their
migration: `if err != nil { return nil, err }`, and otherwise control falls through to the
creation of the table with the root and the rows the migration returned. -/
def afterMigration (db : Database σ ρ τ ε δ) (r : Except Err (ρ × List sql.Row) × σ) :
    Except Err τ × σ :=
  match r with
  | (Except.error err, s1) => (Except.error err, s1)
  | (Except.ok (root1, rowsToAdd), s1) => createAndLoad db root1 rowsToAdd s1

/-- The function `GetOrCreateDoltSchemasTable`: the handle it returns (or the error) and the
state of the database it leaves behind. -/
def GetOrCreateDoltSchemasTable (db : Database σ ρ τ ε δ) (s : σ) : Except Err τ × σ :=
  match db.GetRoot s with
  | Except.error err => (Except.error err, s)
  | Except.ok root =>
    match db.GetTableInsensitiveWithRoot s root doltdb.SchemasTableName with
    | Except.error err => (Except.error err, s)
    | Except.ok none => createAndLoad db root [] s
    | Except.ok (some tbl) =>
      if (db.Schema tbl).length = 3 then
        afterMigration db (migrateV1SchemasTableToV3 db root tbl s)
      else if (db.Schema tbl).length = 4 then
        afterMigration db (migrateV2SchemasTableToV3 db root tbl s)
      else (Except.ok tbl, s)

/-! ## Recording the calls that change the database -/

/-- One call of a state-changing method of `Database`, with its arguments. -/
inductive Call (ρ τ : Type) where
  | DropTable (name : String)
  | createDoltTable (name : String) (root : ρ) (sch : schema.Schema)
  | Inserter (tbl : τ)
  | Insert (tbl : τ) (row : sql.Row)
  | Close (tbl : τ)

/-- The database `db` with a log: every state-changing method behaves as in `db` and
appends its call to the log; the reading methods are those of `db`. -/
def traced (db : Database σ ρ τ ε δ) : Database (σ × List (Call ρ τ)) ρ τ ε δ where
  GetRoot := fun s => db.GetRoot s.1
  GetTableInsensitiveWithRoot := fun s root name => db.GetTableInsensitiveWithRoot s.1 root name
  createDoltTable := fun s name root sch =>
    ((db.createDoltTable s.1 name root sch).1,
      ((db.createDoltTable s.1 name root sch).2, s.2 ++ [Call.createDoltTable name root sch]))
  DropTable := fun s name =>
    ((db.DropTable s.1 name).1, ((db.DropTable s.1 name).2, s.2 ++ [Call.DropTable name]))
  Schema := db.Schema
  GetRowData := fun s tbl => db.GetRowData s.1 tbl
  FromNoms := db.FromNoms
  DoltRowToSqlRow := db.DoltRowToSqlRow
  Inserter := fun s tbl => (db.Inserter s.1 tbl, s.2 ++ [Call.Inserter tbl])
  Insert := fun s tbl row =>
    ((db.Insert s.1 tbl row).1, ((db.Insert s.1 tbl row).2, s.2 ++ [Call.Insert tbl row]))
  Close := fun s tbl =>
    ((db.Close s.1 tbl).1, ((db.Close s.1 tbl).2, s.2 ++ [Call.Close tbl]))

/-! ## An in-memory database

A small executable `Database`, used to run the embedded functions on concrete tables. -/

namespace Mem

/-- The tagged values of a noms tuple: `(tag, value)` pairs. -/
abbrev TaggedValues := List (Nat × Value)

/-- A stored row: its key tuple and its value tuple. -/
structure Entry where
  key : TaggedValues
  val : TaggedValues
  deriving DecidableEq, Repr

/-- A stored table: its schema and its rows. -/
structure Table where
  sch : schema.Schema
  rows : List Entry
  deriving DecidableEq, Repr

/-- A root value: the tables of the working set, by name. -/
abbrev Root := List (String × Table)

/-- A table handle (`*WritableDoltTable`): the name and the schema of the table.  The handle
is a pointer: the rows it holds are those of the table of its name in the working root
at the time they are read, so rows written by an inserter are seen through it. -/
structure Handle where
  name : String
  sch : schema.Schema
  deriving DecidableEq, Repr

/-- Lower-case form of a table name, for the case-insensitive lookup. -/
def lower (name : String) : String := String.mk (name.data.map Char.toLower)

/-- Whether two table names are equal up to case. -/
def sameName (a b : String) : Bool := lower a == lower b

/-- Modelled from the spec: `GetTable(name)` on a root, up to the case of the name. -/
def getTable : Root → String → Option Table
  | [], _ => none
  | (n, t) :: rest, name => if sameName n name then some t else getTable rest name

/-- Modelled from the spec: the root without the tables of that name. -/
def removeTable (root : Root) (name : String) : Root :=
  root.filter (fun p => !sameName p.1 name)

/-- Modelled from the spec: the root with the table of that name replaced by (or set to)
`t`; roots are replaced by value. -/
def putTable (root : Root) (name : String) (t : Table) : Root :=
  (name, t) :: removeTable root name

/-- The sql schema of a dolt schema: one column per column. -/
def toSqlSchema (source : String) (sch : schema.Schema) : sql.Schema :=
  sch.map (fun c => ⟨c.Name,
    match c.Kind with
    | schema.NomsKind.StringKind => sql.SqlType.Text
    | schema.NomsKind.IntKind => sql.SqlType.Int64
    | schema.NomsKind.TimestampKind => sql.SqlType.Timestamp,
    source, c.IsPartOfPK⟩)

/-- Modelled from the spec: `row.FromNoms`, the decoding of a stored row: every tag of the key
tuple must be a primary-key column of
the schema and every tag of the value tuple a column outside the key. -/
def FromNoms (sch : schema.Schema) (e : Entry) : Except Err TaggedValues :=
  if e.key.all (fun kv => sch.any (fun c => c.Tag == kv.1 && c.IsPartOfPK))
      && e.val.all (fun kv => sch.any (fun c => c.Tag == kv.1 && !c.IsPartOfPK)) then
    Except.ok (e.key ++ e.val)
  else Except.error (Err.other "unknown tag")

/-- Modelled from the spec: `sqlutil.DoltRowToSqlRow`, the sql row of a decoded row: one field
per column of the schema, `nil` where the row
has no value for the tag of the column. -/
def DoltRowToSqlRow (sch : schema.Schema) (dRow : TaggedValues) : Except Err sql.Row :=
  Except.ok (sch.map (fun c => (dRow.lookup c.Tag).getD Value.null))

/-- Modelled from the spec: the encoding of a sql row for a schema: one field per column;
`nil` is refused in a key
column and in a column with a not-null constraint and is otherwise left out of the
tuple. -/
def SqlRowToDoltRow : schema.Schema → sql.Row → Except Err Entry
  | [], [] => Except.ok ⟨[], []⟩
  | [], _ :: _ => Except.error (Err.other "too many values")
  | _ :: _, [] => Except.error (Err.other "too few values")
  | c :: cs, v :: vs =>
    match SqlRowToDoltRow cs vs with
    | Except.error err => Except.error err
    | Except.ok e =>
      if v = Value.null then
        if c.NotNull || c.IsPartOfPK then
          Except.error (Err.other "received nil but is non-nullable")
        else Except.ok e
      else if c.IsPartOfPK then Except.ok ⟨(c.Tag, v) :: e.key, e.val⟩
      else Except.ok ⟨e.key, (c.Tag, v) :: e.val⟩

/-- Modelled from the spec: the method `Insert` of the inserter of `h`: the row is encoded
for the schema of the handle and appended to the table of that name in the working root;
a row whose primary key is already in the table is refused. -/
def Insert (s : Root) (h : Handle) (r : sql.Row) : Option Err × Root :=
  match SqlRowToDoltRow h.sch r with
  | Except.error err => (some err, s)
  | Except.ok entry =>
    match getTable s h.name with
    | none => (some (Err.tableNotFound h.name), s)
    | some t =>
      if t.rows.any (fun e => e.key == entry.key) then
        (some (Err.other "duplicate primary key given"), s)
      else (none, putTable s h.name ⟨t.sch, t.rows ++ [entry]⟩)

/-- Modelled from the spec: `GetRowData` through a handle: the stored rows of the table of
its name in the working root. -/
def GetRowData (s : Root) (h : Handle) : Except Err (List Entry) :=
  match getTable s h.name with
  | none => Except.error (Err.tableNotFound h.name)
  | some t => Except.ok t.rows

/-- Modelled from the spec: the method `DropTable`, which fails when there is no such
table. -/
def DropTable (s : Root) (name : String) : Option Err × Root :=
  match getTable s name with
  | none => (some (Err.tableNotFound name), s)
  | some _ => (none, removeTable s name)

/-- Modelled from the spec: the method `createDoltTable`, which puts an empty table with the
given schema into `root` and
makes the result the working root; fails when `root` already has a table of that name. -/
def createDoltTable (s : Root) (name : String) (root : Root) (sch : schema.Schema) :
    Option Err × Root :=
  match getTable root name with
  | some _ => (some (Err.other "table already exists"), s)
  | none => (none, putTable root name ⟨sch, []⟩)

end Mem

/-- Modelled from the spec: the bodies of the methods of `Database`, of the row inserter and
of the row codec are declared outside `schema_table.go`.  This is the store the spec
describes in its sections 3 and 6: a working root that maps table names to tables
(`GetTable`, `DropTable`, `CreateTable`), rows stored as a key tuple and a value tuple of
tagged values, and an inserter whose `Insert` writes one row and refuses a duplicate
primary key.  The state of the database is its working root; rows keep their insertion
order. -/
def memDb : Database Mem.Root Mem.Root Mem.Handle Mem.Entry Mem.TaggedValues where
  GetRoot := fun s => Except.ok s
  GetTableInsensitiveWithRoot := fun _ root name =>
    Except.ok ((Mem.getTable root name).map (fun t => ⟨name, t.sch⟩))
  createDoltTable := Mem.createDoltTable
  DropTable := Mem.DropTable
  Schema := fun h => Mem.toSqlSchema h.name h.sch
  GetRowData := Mem.GetRowData
  FromNoms := fun h e => Mem.FromNoms h.sch e
  DoltRowToSqlRow := fun h d => Mem.DoltRowToSqlRow h.sch d
  Inserter := fun s _ => s
  Insert := Mem.Insert
  Close := fun s _ => (none, s)

/-- The decoding of a stored row of a table with schema `sch`, as the migrations do it:
`FromNoms` and then `DoltRowToSqlRow`. -/
def Mem.decodeEntry (sch : schema.Schema) (e : Mem.Entry) : Except Err sql.Row :=
  match Mem.FromNoms sch e with
  | Except.error err => Except.error err
  | Except.ok dRow => Mem.DoltRowToSqlRow sch dRow

/-- The values of a list of results, when none of them is an error. -/
def Mem.collect {α : Type} : List (Except Err α) → Option (List α)
  | [] => some []
  | Except.error _ :: _ => none
  | Except.ok a :: rest =>
    match Mem.collect rest with
    | none => none
    | some as => some (a :: as)

/-- The rows that the table of that name holds in a state of `memDb`: its stored rows,
decoded; `none` when there is no such table or a stored row does not decode. -/
def Mem.tableRows (s : Mem.Root) (name : String) : Option (List sql.Row) :=
  match Mem.getTable s name with
  | none => none
  | some t => Mem.collect (t.rows.map (Mem.decodeEntry t.sch))

/-- The v1 layout of dolt_schemas: the columns of `TestV1SchemaTableRecreation`, keyed by
`(type, name)`. -/
def Mem.v1Schema : schema.Schema :=
  [ schema.NewColumnNotNull doltdb.SchemasTablesTypeCol 1 schema.NomsKind.StringKind true,
    schema.NewColumnNotNull doltdb.SchemasTablesNameCol 2 schema.NomsKind.StringKind true,
    schema.NewColumn doltdb.SchemasTablesFragmentCol 3 schema.NomsKind.StringKind false ]

/-- The v2 layout of dolt_schemas: the columns of `TestV2SchemaTableRecreation`, keyed by
the surrogate `id`. -/
def Mem.v2Schema : schema.Schema :=
  [ schema.NewColumn doltdb.SchemasTablesTypeCol 1 schema.NomsKind.StringKind false,
    schema.NewColumn doltdb.SchemasTablesNameCol 2 schema.NomsKind.StringKind false,
    schema.NewColumn doltdb.SchemasTablesFragmentCol 3 schema.NomsKind.StringKind false,
    schema.NewColumnNotNull doltdb.SchemasTablesIdCol 7 schema.NomsKind.IntKind true ]

/-- The v1 table of `TestV1SchemaTableRecreation`: two views. -/
def Mem.v1Table : Mem.Table :=
  ⟨Mem.v1Schema,
    [ ⟨[(1, Value.str "view"), (2, Value.str "view1")], [(3, Value.str "SELECT v1 FROM test;")]⟩,
      ⟨[(1, Value.str "view"), (2, Value.str "view2")], [(3, Value.str "SELECT v2 FROM test;")]⟩ ]⟩

/-- The v2 table of `TestV2SchemaTableRecreation`: two views, keyed by `id`. -/
def Mem.v2Table : Mem.Table :=
  ⟨Mem.v2Schema,
    [ ⟨[(7, Value.int 1)],
        [(1, Value.str "view"), (2, Value.str "view1"), (3, Value.str "SELECT v1 FROM test;")]⟩,
      ⟨[(7, Value.int 2)],
        [(1, Value.str "view"), (2, Value.str "view2"), (3, Value.str "SELECT v2 FROM test;")]⟩ ]⟩

end Embedding

/-- A table whose schema has the six current columns, holding one view. -/
def Mem.v3Table : Mem.Table :=
  ⟨SchemasTableSchema,
    [ ⟨[(1, Value.str "view"), (2, Value.str "view1")],
        [(3, Value.str "SELECT v1 FROM test;"), (4, epoch), (5, epoch), (6, Value.str "")]⟩ ]⟩

/-- A table named dolt_schemas with five columns: the v2 layout and one more column. -/
def Mem.fiveColumnTable : Mem.Table :=
  ⟨Mem.v2Schema ++ [schema.NewColumn "extra" 8 schema.NomsKind.StringKind false], []⟩

/-- A v1 table whose second stored row carries a tag that is no column of the table. -/
def Mem.corruptV1Table : Mem.Table :=
  ⟨Mem.v1Schema,
    [ ⟨[(1, Value.str "view"), (2, Value.str "view1")], [(3, Value.str "SELECT v1 FROM test;")]⟩,
      ⟨[(1, Value.str "view"), (2, Value.str "view2")], [(99, Value.str "SELECT v2 FROM test;")]⟩ ]⟩

/-- A v2 table whose two rows differ in `id` and share `(type, name)`. -/
def Mem.dupV2Table : Mem.Table :=
  ⟨Mem.v2Schema,
    [ ⟨[(7, Value.int 1)],
        [(1, Value.str "view"), (2, Value.str "v"), (3, Value.str "SELECT 1;")]⟩,
      ⟨[(7, Value.int 2)],
        [(1, Value.str "view"), (2, Value.str "v"), (3, Value.str "SELECT 2;")]⟩ ]⟩

/-- The database `db` with an injected bulk-load failure: every `Insert` fails with `err`
and writes nothing; all other methods are those of `db`. -/
def failingInsert {σ ρ τ ε δ : Type} (db : Database σ ρ τ ε δ) (err : Err) :
    Database σ ρ τ ε δ where
  GetRoot := db.GetRoot
  GetTableInsensitiveWithRoot := db.GetTableInsensitiveWithRoot
  createDoltTable := db.createDoltTable
  DropTable := db.DropTable
  Schema := db.Schema
  GetRowData := db.GetRowData
  FromNoms := db.FromNoms
  DoltRowToSqlRow := db.DoltRowToSqlRow
  Inserter := db.Inserter
  Insert := fun s _ _ => (some err, s)
  Close := db.Close

/-- The migrated row with the given type, name and fragment. -/
def Mem.row6 (x : Value × Value × Value) : sql.Row :=
  [x.1, x.2.1, x.2.2, epoch, epoch, Value.str ""]

/-- The key tuple under which `memDb` stores a row with the given type and name in a table
with the current schema. -/
def Mem.key6 (x : Value × Value × Value) : Mem.TaggedValues :=
  [(schema.DoltSchemasTypeTag, x.1), (schema.DoltSchemasNameTag, x.2.1)]

/-- The stored form of a migrated row in a table with the current schema. -/
def Mem.entry6 (x : Value × Value × Value) : Mem.Entry :=
  ⟨Mem.key6 x,
    (if x.2.2 = Value.null then [] else [(schema.DoltSchemasFragmentTag, x.2.2)])
      ++ [(schema.DoltSchemasCreatedAtTag, epoch), (schema.DoltSchemasModifiedAtTag, epoch),
          (schema.DoltSchemasMetadataTag, Value.str "")]⟩

/-- The first three fields of a row. -/
def Mem.triple (r : sql.Row) : Value × Value × Value :=
  (r.getD 0 Value.null, r.getD 1 Value.null, r.getD 2 Value.null)

/-! ## Fragment lookup -/

/-- A `sql.RowIter` as `fragFromSchemasTable` uses it: `Next` is the result of its first
call of `Next()`; `io.EOF` is the error `Err.eof`.  The result of the deferred `Close` is
dropped by the Go function. -/
structure RowIter where
  Next : Except Err sql.Row

/-- A `*doltIndexLookup`: `RowIter` is the result of
`dil.RowIter(ctx, dil.IndexRowData(), nil)`. -/
structure IndexLookup where
  RowIter : Except Err RowIter

/-- A `sql.Index`: its `ID()` and its `Get` on the two key values. -/
structure Index where
  ID : String
  Get : String → String → Except Err IndexLookup

/-- The loop of `fragFromSchemasTable` over the indexes: the first index whose id is
`PRIMARY`, or `none` when `fragNameIndex` stays `nil`. -/
def findPrimaryIndex : List Index → Option Index
  | [] => none
  | index :: rest => if index.ID = "PRIMARY" then some index else findPrimaryIndex rest

/-- The function `fragFromSchemasTable`.  Its three results are the row (`none` for `nil`),
the flag `found` and the error (`none` for `nil`).  `GetIndexes` is the method
`tbl.GetIndexes(ctx)`. -/
def fragFromSchemasTable {τ : Type} (GetIndexes : τ → Except Err (List Index)) (tbl : τ)
    (fragType : String) (name : String) : Option sql.Row × Bool × Option Err :=
  match GetIndexes tbl with
  | Except.error err => (none, false, some err)
  | Except.ok indexes =>
    match findPrimaryIndex indexes with
    | none => (none, false, some (Err.noPrimaryIndex doltdb.SchemasTableName))
    | some fragNameIndex =>
      match fragNameIndex.Get fragType name with
      | Except.error err => (none, false, some err)
      | Except.ok dil =>
        match dil.RowIter with
        | Except.error err => (none, false, some err)
        | Except.ok rowIter =>
          match rowIter.Next with
          | Except.ok sqlRow => (some sqlRow, true, none)
          | Except.error Err.eof => (none, false, none)
          | Except.error err => (none, false, some err)

/-- Modelled from the spec: the primary index of a table of `memDb`, read in the state `s`:
`Get` selects the stored rows whose key values are the two strings, and the iterator
yields the first of them, decoded, or `io.EOF`. -/
def Mem.primaryIndex (s : Mem.Root) (h : Mem.Handle) : Index where
  ID := "PRIMARY"
  Get := fun a b =>
    Except.ok ⟨Except.ok ⟨
      match Mem.GetRowData s h with
      | Except.error err => Except.error err
      | Except.ok rows =>
        match rows.find? (fun e => e.key.map Prod.snd == [Value.str a, Value.str b]) with
        | none => Except.error Err.eof
        | some e => decodeRow memDb h e⟩⟩

/-- An index that is not the primary key index: its id is `fragment`. -/
def Mem.fragmentIndex : Index where
  ID := "fragment"
  Get := fun _ _ => Except.error (Err.other "not the primary key index")

/-- Modelled from the spec: the method `GetIndexes` of a table of `memDb`, read in the state
`s`: a secondary index and the primary index. -/
def Mem.GetIndexes (s : Mem.Root) (h : Mem.Handle) : Except Err (List Index) :=
  Except.ok [Mem.fragmentIndex, Mem.primaryIndex s h]

/-- A table handle that has no index at all. -/
def Mem.noIndexes (_h : Mem.Handle) : Except Err (List Index) :=
  Except.ok []

/-- A table handle whose only index is a secondary one. -/
def Mem.secondaryOnly (_h : Mem.Handle) : Except Err (List Index) :=
  Except.ok [Mem.fragmentIndex]

/-! ## Key-spec parser -/

namespace cli

/-- The pieces of a list of characters between the occurrences of `sep`, as
`strings.Split` gives them: the empty list has the one piece `[]`. -/
def splitChars (sep : Char) : List Char → List (List Char)
  | [] => [[]]
  | c :: cs =>
    if c = sep then [] :: splitChars sep cs
    else
      match splitChars sep cs with
      | [] => [[c]]
      | piece :: pieces => (c :: piece) :: pieces

/-- The comma-separated pieces of a token. -/
def splitComma (token : String) : List String :=
  (splitChars ',' token.data).map String.mk

/-- Modelled from the spec: the column a name resolves to, if the schema has one. -/
def resolve (sch : schema.Schema) (name : String) : Option schema.Column :=
  sch.find? (fun c => c.Name == name)

/-- Modelled from the spec: the explicit header, the columns of the given names when every
name resolves to a column. -/
def resolveAll (sch : schema.Schema) : List String → Option (List schema.Column)
  | [] => some []
  | name :: names =>
    match resolve sch name, resolveAll sch names with
    | some c, some cs => some (c :: cs)
    | _, _ => none

/-- Insertion of a column into a list of columns ordered by tag. -/
def insertByTag (c : schema.Column) : List schema.Column → List schema.Column
  | [] => [c]
  | d :: ds => if c.Tag ≤ d.Tag then c :: d :: ds else d :: insertByTag c ds

/-- Modelled from the spec: the default header, the primary-key columns of the schema in
tag order. -/
def defaultHeader (sch : schema.Schema) : List schema.Column :=
  (sch.filter (fun c => c.IsPartOfPK)).foldr insertByTag []

/-- A tag-to-value mapping with one more pair: the pairs stay ordered by ascending tag and a
tag that is already mapped takes the new value. -/
def setTag (tag : Nat) (v : Value) : List (Nat × Value) → List (Nat × Value)
  | [] => [(tag, v)]
  | (t, w) :: rest =>
    if tag < t then (tag, v) :: (t, w) :: rest
    else if tag = t then (tag, v) :: rest
    else (t, w) :: setTag tag v rest

/-- Modelled from the spec: the canonical tuple of a mapping, its pairs in ascending tag
order. -/
def canonical (mapping : List (Nat × Value)) : List (Nat × Value) :=
  mapping.foldl (fun acc kv => setTag kv.1 kv.2 acc) []

/-- Modelled from the spec: the tuple codec (package `row` is not among the source files).
`Encode(schema, mapping, keyOnly)` of the spec (section 4.1): it fails with
`UnknownTagError` when a tag of the mapping has no column in the schema, and otherwise
gives the canonical key tuple, the pairs of the primary-key columns present in the
mapping ordered by ascending tag. -/
def EncodeKey (sch : schema.Schema) (mapping : List (Nat × Value)) :
    Except Err (List (Nat × Value)) :=
  match mapping.find? (fun kv => !sch.any (fun c => c.Tag == kv.1)) with
  | some kv => Except.error (Err.unknownTag kv.1)
  | none =>
    Except.ok (canonical
      (mapping.filter (fun kv => sch.any (fun c => c.Tag == kv.1 && c.IsPartOfPK))))

/-- Modelled from the spec: the value a token stands for in a column of the given kind: a
string column takes the
token as it is, an integer column takes a decimal integer; other tokens cannot be parsed
as the declared type of the column. -/
def parseValue (kind : schema.NomsKind) (token : String) : Except Err Value :=
  match kind with
  | schema.NomsKind.StringKind => Except.ok (Value.str token)
  | schema.NomsKind.IntKind =>
    match token.toInt? with
    | some i => Except.ok (Value.int i)
    | none => Except.error (Err.other "cannot parse value")
  | schema.NomsKind.TimestampKind => Except.error (Err.other "cannot parse value")

/-- Modelled from the spec: the mapping of one group, the values matched positionally to
the header columns. -/
def buildMapping : List schema.Column → List String → Except Err (List (Nat × Value))
  | c :: cs, v :: vs =>
    match parseValue c.Kind v with
    | Except.error err => Except.error err
    | Except.ok x =>
      match buildMapping cs vs with
      | Except.error err => Except.error err
      | Except.ok mapping => Except.ok ((c.Tag, x) :: mapping)
  | _, _ => Except.ok []

/-- Modelled from the spec: one group of the key spec: the token is split on commas when the
header has more than
one column, the number of values must be the length of the header, and the mapping is
encoded as a key tuple. -/
def parseGroup (sch : schema.Schema) (header : List schema.Column) (token : String) :
    Except Err (List (Nat × Value)) :=
  if (if header.length > 1 then splitComma token else [token]).length ≠ header.length then
    Except.error (Err.malformedKeySpec token)
  else
    match buildMapping header (if header.length > 1 then splitComma token else [token]) with
    | Except.error err => Except.error err
    | Except.ok mapping => EncodeKey sch mapping

/-- Modelled from the spec: the key tuples of the groups, in order; the first error ends
the parse. -/
def parseGroups (sch : schema.Schema) (header : List schema.Column) :
    List String → Except Err (List (List (Nat × Value)))
  | [] => Except.ok []
  | token :: rest =>
    match parseGroup sch header token with
    | Except.error err => Except.error err
    | Except.ok key =>
      match parseGroups sch header rest with
      | Except.error err => Except.error err
      | Except.ok keys => Except.ok (key :: keys)

/-- Modelled from the spec: the function `cli.ParseKeyValues`, of which only the test
`TestParseKeyValues` is among the source files.  This is the algorithm of section 4.2 of
the spec with its edge cases.

* A single argument that is a column name is a header with no group after it and gives
  no tuple; a single argument that is not a column name is one value under the default
  header, the primary-key columns in tag order.  Where step 1 of the algorithm and this
  edge case disagree, on a single argument that is no column name although each of its
  comma-separated pieces is one, the edge case is followed.
* With more than one argument, `args[0]` is split on commas, and when every piece
  resolves to a column of the schema it is the header and is consumed; otherwise the
  header is the default header and `args[0]` is not consumed.

Every remaining token is one group and gives one key tuple (the reading under which the
spec's example `["first,last", "robert,robertson", "john,johnson"]` gives two tuples). -/
def ParseKeyValues (sch : schema.Schema) (args : List String) :
    Except Err (List (List (Nat × Value))) :=
  match args with
  | [] => Except.ok []
  | [arg0] =>
    match resolve sch arg0 with
    | some _ => Except.ok []
    | none => parseGroups sch (defaultHeader sch) [arg0]
  | arg0 :: rest =>
    match resolveAll sch (splitComma arg0) with
    | some header => parseGroups sch header rest
    | none => parseGroups sch (defaultHeader sch) (arg0 :: rest)

/-- The schema `singleKeySch` of `TestParseKeyValues`: one primary-key column `last` with
tag 1. -/
def singleKeySch : schema.Schema :=
  [schema.NewColumn "last" 1 schema.NomsKind.StringKind true]

/-- The schema `sch` of `TestParseKeyValues`: the key columns `last`, `first`, `middle` with
tags 1, 0, 2. -/
def testKeySch : schema.Schema :=
  [ schema.NewColumn "last" 1 schema.NomsKind.StringKind true,
    schema.NewColumn "first" 0 schema.NomsKind.StringKind true,
    schema.NewColumn "middle" 2 schema.NomsKind.StringKind true ]

end cli

/-! ## The command `dolt schema tags` -/

namespace schcmds

/-- What `TagsCmd.Exec` writes: `cli.Println(s)`, `cli.PrintErr(err)`, and
`cli.Printf("%s | %s | %d \n", tableName, col.Name, tag)`, kept with its three arguments. -/
inductive Printed where
  | Println (s : String)
  | PrintErr (err : Err)
  | Printf (tableName : String) (colName : String) (tag : Nat)
  deriving DecidableEq, Repr

/-- How a run of `TagsCmd.Exec` ends: it returns an exit code, or the program aborts with a
run-time panic (a nil dereference). -/
inductive Outcome where
  | exit (code : Int)
  | panic
  deriving DecidableEq, Repr

/-- The collaborators of `TagsCmd.Exec`; `ρ` is a `*doltdb.RootValue` and `τ` a
`doltdb.Table`.

* `GetWorkingWithVErr` is `commands.GetWorkingWithVErr(dEnv)`.
* `HandleVErrAndExitCode` is `commands.HandleVErrAndExitCode(verr, usage)`: what it prints
  and the code it returns.
* `GetTableNames` is `root.GetTableNames(ctx)` and `RemoveDocsTbl` is
  `commands.RemoveDocsTbl`.
* `GetTable` is `root.GetTable(ctx, tableName)`; its three results are the table pointer,
  the flag `ok` and the error, and `Except.ok none` stands for `(nil, false, nil)`, the
  result for a name that is not in the root.
* `GetSchema` is `table.GetSchema(ctx)`, called on a pointer that may be `nil` (`none`).
  Its result is `none` when the call aborts the program, and otherwise the schema
  (`none` for a `nil` schema) and the error (`none` for `nil`). -/
structure TagsEnv (ρ τ : Type) where
  GetWorkingWithVErr : Except Err ρ
  HandleVErrAndExitCode : Err → List Printed × Int
  GetTableNames : ρ → Except Err (List String)
  RemoveDocsTbl : List String → List String
  GetTable : ρ → String → Except Err (Option τ)
  GetSchema : Option τ → Option (Option schema.Schema × Option Err)

/-- The loop `for _, tableName := range tables` of `TagsCmd.Exec` (lines 93-113), with what
was printed so far.  The flag `ok` of `root.GetTable` is dropped (`table, _, err :=`), so
the table pointer goes to `GetSchema` whether or not the table was found.
`sch.GetAllCols().Iter` runs before the error of `GetSchema` is looked at; on a `nil`
schema that method call aborts the program.  The callback prints one line per column
and never stops the iteration. -/
def tagsLoop {ρ τ : Type} (env : TagsEnv ρ τ) (root : ρ) :
    List String → List Printed → List Printed × Outcome
  | [], out => (out, Outcome.exit 0)
  | tableName :: rest, out =>
    match env.GetTable root tableName with
    | Except.error err => (out ++ [Printed.PrintErr err], Outcome.exit (-1))
    | Except.ok table =>
      match env.GetSchema table with
      | none => (out, Outcome.panic)
      | some (none, _) => (out, Outcome.panic)
      | some (some sch, err) =>
        match err with
        | some _ =>
          (out ++ sch.map (fun col => Printed.Printf tableName col.Name col.Tag),
            Outcome.exit (-1))
        | none =>
          tagsLoop env root rest
            (out ++ sch.map (fun col => Printed.Printf tableName col.Name col.Tag))

/-- The method `TagsCmd.Exec`, from `tables := apr.Args()` on: what it prints and how it
ends.  `tables` is the list of table names given on the command line.  The error built
by `errhand.BuildDError("unable to get table names.").AddCause(err).Build()` is
`Err.other` with that message. -/
def Exec {ρ τ : Type} (env : TagsEnv ρ τ) (tables : List String) : List Printed × Outcome :=
  match env.GetWorkingWithVErr with
  | Except.error verr =>
    ((env.HandleVErrAndExitCode verr).1, Outcome.exit (env.HandleVErrAndExitCode verr).2)
  | Except.ok root =>
    if tables.length = 0 then
      match env.GetTableNames root with
      | Except.error _ =>
        ((env.HandleVErrAndExitCode (Err.other "unable to get table names.")).1,
          Outcome.exit (env.HandleVErrAndExitCode (Err.other "unable to get table names.")).2)
      | Except.ok names =>
        if (env.RemoveDocsTbl names).length = 0 then
          ([Printed.Println "No tables in working set"], Outcome.exit 0)
        else tagsLoop env root (env.RemoveDocsTbl names) []
    else tagsLoop env root tables []

/-- What the documentation of the command promises (`tblTagsDocs`: "If a given table does
not exist, then it is ignored"): one line per column of every named table that exists,
in order, nothing for a name that does not exist. -/
def expectedLines (root : List (String × schema.Schema)) : List String → List Printed
  | [] => []
  | tableName :: rest =>
    match root.lookup tableName with
    | none => expectedLines root rest
    | some sch =>
      sch.map (fun col => Printed.Printf tableName col.Name col.Tag) ++ expectedLines root rest

/-- Modelled from the spec: the working root and the methods of `doltdb.RootValue` and
`doltdb.Table` (package `doltdb` is not among the source files).  A root maps table
names to schemas; `GetTable` gives `(nil, false, nil)` for a name that is not in the
root; `GetSchema` reads the fields of its receiver, so on a `nil` table it aborts the
program with a nil-pointer dereference, and on a table it gives the schema of the
table. -/
def memTagsEnv (root : List (String × schema.Schema)) :
    TagsEnv (List (String × schema.Schema)) schema.Schema where
  GetWorkingWithVErr := Except.ok root
  HandleVErrAndExitCode := fun verr => ([Printed.PrintErr verr], 1)
  GetTableNames := fun r => Except.ok (r.map Prod.fst)
  RemoveDocsTbl := fun names => names.filter (fun n => n != "dolt_docs")
  GetTable := fun r name => Except.ok (r.lookup name)
  GetSchema := fun table =>
    match table with
    | none => none
    | some sch => some (some sch, none)

/-- A working root with the one table `people`, whose columns are those of the schema
`sch` of `TestParseKeyValues`. -/
def peopleRoot : List (String × schema.Schema) := [("people", cli.testKeySch)]

end schcmds

/-- Whether a logged call is a `Close` of the inserter. -/
def Call.isClose {ρ τ : Type} : Call ρ τ → Bool
  | Call.Close _ => true
  | _ => false

/-- Whether a field can be the value of a text column: a string or `nil`. -/
def Value.isText : Value → Bool
  | Value.null => true
  | Value.str _ => true
  | Value.int _ => false
  | Value.time _ _ => false

/-! ## Theorems -/

section Migration

variable {σ ρ τ ε δ : Type}

/-- When every stored pair decodes, the v1 callback appends one migrated row per pair. -/
theorem IterAll_migrateV1Callback (db : Database σ ρ τ ε δ) (tbl : τ) :
    ∀ (entries : List ε) (rows acc : List sql.Row),
      entries.map (decodeRow db tbl) = rows.map Except.ok →
      IterAll (migrateV1Callback db tbl) entries acc
        = Except.ok (acc ++ rows.map (fun r => r ++ [epoch, epoch, Value.str ""])) := by
  intro entries
  induction entries with
  | nil =>
    intro rows acc h
    cases rows with
    | nil => simp [IterAll]
    | cons r rs => simp at h
  | cons e es ih =>
    intro rows acc h
    cases rows with
    | nil => simp at h
    | cons r rs =>
      simp only [List.map_cons, List.cons.injEq] at h
      simp [IterAll, migrateV1Callback, h.1, ih rs _ h.2]

/-- Claim C1.  A v1 migration whose source rows all decode, and whose `DropTable` and
`GetRoot` succeed, returns one row per source row, in order; a decoded row
`[type, name, fragment]` becomes `[type, name, fragment, epoch, epoch, ""]`: six fields,
the three originals in place, then `createdAt` and `modifiedAt` equal to
`time.Unix(0, 0).UTC()` and `metadata` equal to the empty string, which is not `nil`. -/
theorem migrateV1_row_transform (db : Database σ ρ τ ε δ) (s : σ) (root root1 : ρ) (tbl : τ)
    (entries : List ε) (rows : List sql.Row)
    (hdata : db.GetRowData s tbl = Except.ok entries)
    (hdec : entries.map (decodeRow db tbl) = rows.map Except.ok)
    (hdrop : (db.DropTable s doltdb.SchemasTableName).1 = none)
    (hroot : db.GetRoot (db.DropTable s doltdb.SchemasTableName).2 = Except.ok root1) :
    ∃ rowsToAdd : List sql.Row,
      migrateV1SchemasTableToV3 db root tbl s
        = (Except.ok (root1, rowsToAdd), (db.DropTable s doltdb.SchemasTableName).2)
      ∧ rowsToAdd.length = rows.length
      ∧ (∀ (i : Nat) (t n f : Value), rows[i]? = some [t, n, f] →
          rowsToAdd[i]? = some [t, n, f, epoch, epoch, Value.str ""]
          ∧ [t, n, f, epoch, epoch, Value.str ""].length = 6)
      ∧ Value.str "" ≠ Value.null := by
  refine ⟨rows.map (fun r => r ++ [epoch, epoch, Value.str ""]), ?_, by simp, ?_, by simp⟩
  · have hd : db.DropTable s doltdb.SchemasTableName
        = (none, (db.DropTable s doltdb.SchemasTableName).2) := by
      rw [← hdrop]
    simp only [migrateV1SchemasTableToV3, hdata,
      IterAll_migrateV1Callback db tbl entries rows [] hdec, dropAndReload, List.nil_append]
    rw [hd]
    simp only [hroot]
  · intro i t n f h
    simp [List.getElem?_map, h]

/-- Claim C1 on the v1 table of `TestV1SchemaTableRecreation`. -/
theorem migrateV1_row_transform_witness :
    ∃ rowsToAdd : List sql.Row,
      migrateV1SchemasTableToV3 memDb [] ⟨"dolt_schemas", Mem.v1Schema⟩
          [("dolt_schemas", Mem.v1Table)]
        = (Except.ok ([], rowsToAdd),
            (memDb.DropTable [("dolt_schemas", Mem.v1Table)]
              doltdb.SchemasTableName).2)
      ∧ rowsToAdd.length
          = [[Value.str "view", Value.str "view1", Value.str "SELECT v1 FROM test;"],
             [Value.str "view", Value.str "view2", Value.str "SELECT v2 FROM test;"]].length
      ∧ (∀ (i : Nat) (t n f : Value),
          [[Value.str "view", Value.str "view1", Value.str "SELECT v1 FROM test;"],
           [Value.str "view", Value.str "view2", Value.str "SELECT v2 FROM test;"]][i]?
            = some [t, n, f] →
          rowsToAdd[i]? = some [t, n, f, epoch, epoch, Value.str ""]
          ∧ [t, n, f, epoch, epoch, Value.str ""].length = 6)
      ∧ Value.str "" ≠ Value.null :=
  migrateV1_row_transform memDb [("dolt_schemas", Mem.v1Table)] [] []
    ⟨"dolt_schemas", Mem.v1Schema⟩ Mem.v1Table.rows
    [[Value.str "view", Value.str "view1", Value.str "SELECT v1 FROM test;"],
     [Value.str "view", Value.str "view2", Value.str "SELECT v2 FROM test;"]]
    (by rfl) (by rfl) (by decide) (by rfl)

/-- When every stored pair decodes to a row of at least three fields, the v2 callback
appends one migrated row per pair. -/
theorem IterAll_migrateV2Callback (db : Database σ ρ τ ε δ) (tbl : τ) :
    ∀ (entries : List ε) (rows acc : List sql.Row),
      entries.map (decodeRow db tbl) = rows.map Except.ok →
      (∀ r ∈ rows, 3 ≤ r.length) →
      IterAll (migrateV2Callback db tbl) entries acc
        = Except.ok (acc ++ rows.map (fun r => r.take 3 ++ [epoch, epoch, Value.str ""])) := by
  intro entries
  induction entries with
  | nil =>
    intro rows acc h _
    cases rows with
    | nil => simp [IterAll]
    | cons r rs => simp at h
  | cons e es ih =>
    intro rows acc h hlen
    cases rows with
    | nil => simp at h
    | cons r rs =>
      simp only [List.map_cons, List.cons.injEq] at h
      have hr : ¬ r.length < 3 := by
        have := hlen r (List.mem_cons_self r rs)
        omega
      have hrs : ∀ x ∈ rs, 3 ≤ x.length := fun x hx => hlen x (List.mem_cons_of_mem r hx)
      simp [IterAll, migrateV2Callback, h.1, hr, ih rs _ h.2 hrs]

/-- Claim C2.  A v2 migration whose source rows all decode to four fields, and whose
`DropTable` and `GetRoot` succeed, returns one row per source row, in order; a decoded
row `[type, name, fragment, id]` becomes exactly `[type, name, fragment, epoch, epoch, ""]`.
The surrogate id is gone: when it is an integer and the three text fields are strings or
`nil`, it is no field of the migrated row. -/
theorem migrateV2_row_transform (db : Database σ ρ τ ε δ) (s : σ) (root root1 : ρ) (tbl : τ)
    (entries : List ε) (rows : List sql.Row)
    (hdata : db.GetRowData s tbl = Except.ok entries)
    (hdec : entries.map (decodeRow db tbl) = rows.map Except.ok)
    (hlen : ∀ r ∈ rows, r.length = 4)
    (hdrop : (db.DropTable s doltdb.SchemasTableName).1 = none)
    (hroot : db.GetRoot (db.DropTable s doltdb.SchemasTableName).2 = Except.ok root1) :
    ∃ rowsToAdd : List sql.Row,
      migrateV2SchemasTableToV3 db root tbl s
        = (Except.ok (root1, rowsToAdd), (db.DropTable s doltdb.SchemasTableName).2)
      ∧ rowsToAdd.length = rows.length
      ∧ ∀ (i : Nat) (t n f id : Value), rows[i]? = some [t, n, f, id] →
          rowsToAdd[i]? = some [t, n, f, epoch, epoch, Value.str ""]
          ∧ (∀ k : Int, id = Value.int k → t.isText = true → n.isText = true →
              f.isText = true → id ∉ [t, n, f, epoch, epoch, Value.str ""]) := by
  refine ⟨rows.map (fun r => r.take 3 ++ [epoch, epoch, Value.str ""]), ?_, by simp, ?_⟩
  · have hd : db.DropTable s doltdb.SchemasTableName
        = (none, (db.DropTable s doltdb.SchemasTableName).2) := by
      rw [← hdrop]
    have h3 : ∀ r ∈ rows, 3 ≤ r.length := fun r hr => by
      have := hlen r hr
      omega
    simp only [migrateV2SchemasTableToV3, hdata,
      IterAll_migrateV2Callback db tbl entries rows [] hdec h3, dropAndReload, List.nil_append]
    rw [hd]
    simp only [hroot]
  · intro i t n f id h
    refine ⟨by simp [List.getElem?_map, h], ?_⟩
    intro k hk ht hn hf
    subst hk
    cases t <;> cases n <;> cases f <;> simp_all [Value.isText, epoch]

/-- Claim C2 on the v2 table of `TestV2SchemaTableRecreation`. -/
theorem migrateV2_row_transform_witness :
    ∃ rowsToAdd : List sql.Row,
      migrateV2SchemasTableToV3 memDb [] ⟨"dolt_schemas", Mem.v2Schema⟩
          [("dolt_schemas", Mem.v2Table)]
        = (Except.ok ([], rowsToAdd),
            (memDb.DropTable [("dolt_schemas", Mem.v2Table)]
              doltdb.SchemasTableName).2)
      ∧ rowsToAdd.length
          = [[Value.str "view", Value.str "view1", Value.str "SELECT v1 FROM test;", Value.int 1],
             [Value.str "view", Value.str "view2", Value.str "SELECT v2 FROM test;",
              Value.int 2]].length
      ∧ ∀ (i : Nat) (t n f id : Value),
          [[Value.str "view", Value.str "view1", Value.str "SELECT v1 FROM test;", Value.int 1],
           [Value.str "view", Value.str "view2", Value.str "SELECT v2 FROM test;",
            Value.int 2]][i]? = some [t, n, f, id] →
          rowsToAdd[i]? = some [t, n, f, epoch, epoch, Value.str ""]
          ∧ (∀ k : Int, id = Value.int k → t.isText = true → n.isText = true →
              f.isText = true → id ∉ [t, n, f, epoch, epoch, Value.str ""]) :=
  migrateV2_row_transform memDb [("dolt_schemas", Mem.v2Table)] [] []
    ⟨"dolt_schemas", Mem.v2Schema⟩ Mem.v2Table.rows
    [[Value.str "view", Value.str "view1", Value.str "SELECT v1 FROM test;", Value.int 1],
     [Value.str "view", Value.str "view2", Value.str "SELECT v2 FROM test;", Value.int 2]]
    (by rfl) (by rfl) (by decide) (by decide) (by rfl)

end Migration

section GetOrCreate

variable {σ ρ τ ε δ : Type}

/-- Claim C5 as stated fails: a dolt_schemas table with five columns is not refused.
`GetOrCreateDoltSchemasTable` returns its handle without an error and leaves the database
as it was. -/
theorem five_columns_not_refused :
    (memDb.Schema ⟨"dolt_schemas", Mem.fiveColumnTable.sch⟩).length = 5
    ∧ GetOrCreateDoltSchemasTable memDb
        [("dolt_schemas", Mem.fiveColumnTable)]
      = (Except.ok ⟨"dolt_schemas", Mem.fiveColumnTable.sch⟩,
          [("dolt_schemas", Mem.fiveColumnTable)]) := by
  constructor <;> rfl

/-- Claim C5, amended.  For an existing dolt_schemas table the dispatch goes by column
count alone: with exactly 3 columns the call continues with the v1 migration, with exactly
4 columns with the v2 migration, and with every other column count (6, but also 0, 1, 2, 5
or 7) the table is taken to be current: its handle is returned without an error, no
state-changing method is called and the database is left as it was. -/
theorem version_dispatch (db : Database σ ρ τ ε δ) (s : σ) (root : ρ) (tbl : τ)
    (hroot : db.GetRoot s = Except.ok root)
    (htbl : db.GetTableInsensitiveWithRoot s root doltdb.SchemasTableName
      = Except.ok (some tbl)) :
    ((db.Schema tbl).length = 3 →
      GetOrCreateDoltSchemasTable db s
        = afterMigration db (migrateV1SchemasTableToV3 db root tbl s))
    ∧ ((db.Schema tbl).length = 4 →
      GetOrCreateDoltSchemasTable db s
        = afterMigration db (migrateV2SchemasTableToV3 db root tbl s))
    ∧ ((db.Schema tbl).length ≠ 3 → (db.Schema tbl).length ≠ 4 →
      GetOrCreateDoltSchemasTable db s = (Except.ok tbl, s)
      ∧ ∀ log : List (Call ρ τ),
        GetOrCreateDoltSchemasTable (traced db) (s, log) = (Except.ok tbl, (s, log))) := by
  refine ⟨?_, ?_, ?_⟩
  · intro h
    simp [GetOrCreateDoltSchemasTable, hroot, htbl, h]
  · intro h
    simp [GetOrCreateDoltSchemasTable, hroot, htbl, h]
  · intro h3 h4
    refine ⟨by simp [GetOrCreateDoltSchemasTable, hroot, htbl, h3, h4], ?_⟩
    intro log
    simp [GetOrCreateDoltSchemasTable, traced, hroot, htbl, h3, h4]

/-- Claim C5, amended, on the v1 table of `TestV1SchemaTableRecreation`: three columns send
the call to the v1 migration. -/
theorem version_dispatch_witness :
    GetOrCreateDoltSchemasTable memDb [("dolt_schemas", Mem.v1Table)]
      = afterMigration memDb
          (migrateV1SchemasTableToV3 memDb
            [("dolt_schemas", Mem.v1Table)] ⟨"dolt_schemas", Mem.v1Schema⟩
            [("dolt_schemas", Mem.v1Table)]) :=
  (version_dispatch memDb [("dolt_schemas", Mem.v1Table)]
    [("dolt_schemas", Mem.v1Table)] ⟨"dolt_schemas", Mem.v1Schema⟩ (by rfl) (by rfl)).1
    (by decide)

/-- Claim C6.  When dolt_schemas exists with six columns, `GetOrCreateDoltSchemasTable`
returns the handle that the lookup found, without an error, and leaves the database in
the state it started from; run on the logging database it adds no call to the log (no
`DropTable`, no `createDoltTable`, no `Inserter`, `Insert` or `Close`); and a second call
on the resulting state returns what the first call returned. -/
theorem current_table_noop (db : Database σ ρ τ ε δ) (s : σ) (root : ρ) (tbl : τ)
    (hroot : db.GetRoot s = Except.ok root)
    (htbl : db.GetTableInsensitiveWithRoot s root doltdb.SchemasTableName
      = Except.ok (some tbl))
    (hcols : (db.Schema tbl).length = 6) :
    GetOrCreateDoltSchemasTable db s = (Except.ok tbl, s)
    ∧ (∀ log : List (Call ρ τ),
        GetOrCreateDoltSchemasTable (traced db) (s, log) = (Except.ok tbl, (s, log)))
    ∧ GetOrCreateDoltSchemasTable db (GetOrCreateDoltSchemasTable db s).2
        = GetOrCreateDoltSchemasTable db s := by
  have h1 : GetOrCreateDoltSchemasTable db s = (Except.ok tbl, s) := by
    simp [GetOrCreateDoltSchemasTable, hroot, htbl, hcols]
  refine ⟨h1, ?_, ?_⟩
  · intro log
    simp [GetOrCreateDoltSchemasTable, traced, hroot, htbl, hcols]
  · rw [h1]
    exact h1

/-- Claim C6 on a database whose dolt_schemas table has the current schema and one row. -/
theorem current_table_noop_witness :
    GetOrCreateDoltSchemasTable memDb [("dolt_schemas", Mem.v3Table)]
      = (Except.ok ⟨"dolt_schemas", SchemasTableSchema⟩, [("dolt_schemas", Mem.v3Table)])
    ∧ (∀ log : List (Call Mem.Root Mem.Handle),
        GetOrCreateDoltSchemasTable (traced memDb)
            ([("dolt_schemas", Mem.v3Table)], log)
          = (Except.ok ⟨"dolt_schemas", SchemasTableSchema⟩, ([("dolt_schemas", Mem.v3Table)], log)))
    ∧ GetOrCreateDoltSchemasTable memDb
        (GetOrCreateDoltSchemasTable memDb
          [("dolt_schemas", Mem.v3Table)]).2
      = GetOrCreateDoltSchemasTable memDb
          [("dolt_schemas", Mem.v3Table)] :=
  current_table_noop memDb [("dolt_schemas", Mem.v3Table)]
    [("dolt_schemas", Mem.v3Table)] ⟨"dolt_schemas", SchemasTableSchema⟩ (by rfl) (by rfl) (by decide)

/-- The iteration over a list that was put together from two runs the callback on the first
part and, when that did not fail, on the second. -/
theorem IterAll_append {α : Type} (cb : ε → α → Except Err α) :
    ∀ (xs ys : List ε) (acc : α),
      IterAll cb (xs ++ ys) acc =
        match IterAll cb xs acc with
        | Except.error err => Except.error err
        | Except.ok acc1 => IterAll cb ys acc1 := by
  intro xs
  induction xs with
  | nil => intro ys acc; simp [IterAll]
  | cons x xs ih =>
    intro ys acc
    simp only [List.cons_append, IterAll]
    cases cb x acc with
    | error err => simp
    | ok acc1 => simp [ih]

/-- A row whose `row.FromNoms` or `sqlutil.DoltRowToSqlRow` fails does not decode. -/
theorem decodeRow_error (db : Database σ ρ τ ε δ) (tbl : τ) (bad : ε) (err : Err)
    (h : db.FromNoms tbl bad = Except.error err
      ∨ ∃ d, db.FromNoms tbl bad = Except.ok d ∧ db.DoltRowToSqlRow tbl d = Except.error err) :
    decodeRow db tbl bad = Except.error err := by
  rcases h with h | ⟨d, h1, h2⟩
  · simp [decodeRow, h]
  · simp [decodeRow, h1, h2]

/-- Both migrations return the error of `GetRowData`, or of the first row that does not
decode, and leave the state alone; so does `GetOrCreateDoltSchemasTable` on a legacy
table. -/
theorem decode_failure_core (db : Database σ ρ τ ε δ) (s : σ) (root : ρ) (tbl : τ) (err : Err)
    (hroot : db.GetRoot s = Except.ok root)
    (htbl : db.GetTableInsensitiveWithRoot s root doltdb.SchemasTableName
      = Except.ok (some tbl))
    (hlegacy : (db.Schema tbl).length = 3 ∨ (db.Schema tbl).length = 4)
    (hfail : db.GetRowData s tbl = Except.error err
      ∨ ∃ (pre : List ε) (bad : ε) (post : List ε) (rowsPre : List sql.Row),
          db.GetRowData s tbl = Except.ok (pre ++ bad :: post)
          ∧ pre.map (decodeRow db tbl) = rowsPre.map Except.ok
          ∧ (∀ r ∈ rowsPre, r.length = (db.Schema tbl).length)
          ∧ decodeRow db tbl bad = Except.error err) :
    migrateV1SchemasTableToV3 db root tbl s = (Except.error err, s)
    ∧ migrateV2SchemasTableToV3 db root tbl s = (Except.error err, s)
    ∧ GetOrCreateDoltSchemasTable db s = (Except.error err, s) := by
  have h12 : migrateV1SchemasTableToV3 db root tbl s = (Except.error err, s)
      ∧ migrateV2SchemasTableToV3 db root tbl s = (Except.error err, s) := by
    rcases hfail with h | ⟨pre, bad, post, rowsPre, hdata, hpre, hlen, hbad⟩
    · simp [migrateV1SchemasTableToV3, migrateV2SchemasTableToV3, h]
    · have h3 : ∀ r ∈ rowsPre, 3 ≤ r.length := fun r hr => by
        have := hlen r hr
        omega
      constructor
      · simp [migrateV1SchemasTableToV3, hdata, IterAll_append,
          IterAll_migrateV1Callback db tbl pre rowsPre [] hpre, IterAll, migrateV1Callback, hbad]
      · simp [migrateV2SchemasTableToV3, hdata, IterAll_append,
          IterAll_migrateV2Callback db tbl pre rowsPre [] hpre h3, IterAll, migrateV2Callback,
          hbad]
  refine ⟨h12.1, h12.2, ?_⟩
  rcases hlegacy with h | h
  · simp [GetOrCreateDoltSchemasTable, hroot, htbl, h, h12.1, afterMigration]
  · simp [GetOrCreateDoltSchemasTable, hroot, htbl, h, h12.2, afterMigration]

/-- Claim C7.  On a legacy table (3 or 4 columns), when `GetRowData` fails, or when some
stored row fails in `row.FromNoms` or `sqlutil.DoltRowToSqlRow` after the rows before it
decoded to one field per column, both migrations return that error (and with it no root
and no rows) and `GetOrCreateDoltSchemasTable` returns that error; the database is left
in the state it started from, and on the logging database no call is added to the log:
`DropTable` is never reached. -/
theorem decode_failure_aborts (db : Database σ ρ τ ε δ) (s : σ) (root : ρ) (tbl : τ)
    (err : Err)
    (hroot : db.GetRoot s = Except.ok root)
    (htbl : db.GetTableInsensitiveWithRoot s root doltdb.SchemasTableName
      = Except.ok (some tbl))
    (hlegacy : (db.Schema tbl).length = 3 ∨ (db.Schema tbl).length = 4)
    (hfail : db.GetRowData s tbl = Except.error err
      ∨ ∃ (pre : List ε) (bad : ε) (post : List ε) (rowsPre : List sql.Row),
          db.GetRowData s tbl = Except.ok (pre ++ bad :: post)
          ∧ pre.map (decodeRow db tbl) = rowsPre.map Except.ok
          ∧ (∀ r ∈ rowsPre, r.length = (db.Schema tbl).length)
          ∧ (db.FromNoms tbl bad = Except.error err
            ∨ ∃ d, db.FromNoms tbl bad = Except.ok d
              ∧ db.DoltRowToSqlRow tbl d = Except.error err)) :
    migrateV1SchemasTableToV3 db root tbl s = (Except.error err, s)
    ∧ migrateV2SchemasTableToV3 db root tbl s = (Except.error err, s)
    ∧ GetOrCreateDoltSchemasTable db s = (Except.error err, s)
    ∧ ∀ log : List (Call ρ τ),
        migrateV1SchemasTableToV3 (traced db) root tbl (s, log) = (Except.error err, (s, log))
        ∧ migrateV2SchemasTableToV3 (traced db) root tbl (s, log)
            = (Except.error err, (s, log))
        ∧ GetOrCreateDoltSchemasTable (traced db) (s, log) = (Except.error err, (s, log)) := by
  have hfail1 : db.GetRowData s tbl = Except.error err
      ∨ ∃ (pre : List ε) (bad : ε) (post : List ε) (rowsPre : List sql.Row),
          db.GetRowData s tbl = Except.ok (pre ++ bad :: post)
          ∧ pre.map (decodeRow db tbl) = rowsPre.map Except.ok
          ∧ (∀ r ∈ rowsPre, r.length = (db.Schema tbl).length)
          ∧ decodeRow db tbl bad = Except.error err := by
    rcases hfail with h | ⟨pre, bad, post, rowsPre, h1, h2, h3, h4⟩
    · exact Or.inl h
    · exact Or.inr ⟨pre, bad, post, rowsPre, h1, h2, h3, decodeRow_error db tbl bad err h4⟩
  obtain ⟨a, b, c⟩ := decode_failure_core db s root tbl err hroot htbl hlegacy hfail1
  refine ⟨a, b, c, ?_⟩
  intro log
  exact decode_failure_core (traced db) (s, log) root tbl err hroot htbl hlegacy hfail1

/-- Claim C7 on a v1 table whose second row carries an unknown tag: the first row decodes,
the second fails in `row.FromNoms`. -/
theorem decode_failure_aborts_witness :
    migrateV1SchemasTableToV3 memDb [("dolt_schemas", Mem.corruptV1Table)]
        ⟨"dolt_schemas", Mem.v1Schema⟩ [("dolt_schemas", Mem.corruptV1Table)]
      = (Except.error (Err.other "unknown tag"), [("dolt_schemas", Mem.corruptV1Table)])
    ∧ GetOrCreateDoltSchemasTable memDb
        [("dolt_schemas", Mem.corruptV1Table)]
      = (Except.error (Err.other "unknown tag"), [("dolt_schemas", Mem.corruptV1Table)])
    ∧ GetOrCreateDoltSchemasTable (traced memDb)
        ([("dolt_schemas", Mem.corruptV1Table)], [])
      = (Except.error (Err.other "unknown tag"), ([("dolt_schemas", Mem.corruptV1Table)], [])) :=
  have h := decode_failure_aborts memDb
    [("dolt_schemas", Mem.corruptV1Table)] [("dolt_schemas", Mem.corruptV1Table)]
    ⟨"dolt_schemas", Mem.v1Schema⟩ (Err.other "unknown tag") (by rfl) (by rfl)
    (Or.inl (by decide))
    (Or.inr ⟨[⟨[(1, Value.str "view"), (2, Value.str "view1")],
                [(3, Value.str "SELECT v1 FROM test;")]⟩],
      ⟨[(1, Value.str "view"), (2, Value.str "view2")], [(99, Value.str "SELECT v2 FROM test;")]⟩,
      [], [[Value.str "view", Value.str "view1", Value.str "SELECT v1 FROM test;"]],
      by rfl, by rfl, by decide, Or.inl (by rfl)⟩)
  ⟨h.1, h.2.2.1, (h.2.2.2 []).2.2⟩

/-- With no rows to add, the second half of `GetOrCreateDoltSchemasTable` succeeds exactly
when `createDoltTable` succeeds and the table is found afterwards; it then returns the
handle found and the state `createDoltTable` left. -/
theorem createAndLoad_nil_ok (db : Database σ ρ τ ε δ) (s s1 : σ) (root : ρ) (t : τ)
    (h : createAndLoad db root [] s = (Except.ok t, s1)) :
    db.createDoltTable s doltdb.SchemasTableName root SchemasTableSchema = (none, s1)
    ∧ ∃ root2, db.GetRoot s1 = Except.ok root2
        ∧ db.GetTableInsensitiveWithRoot s1 root2 doltdb.SchemasTableName
            = Except.ok (some t) := by
  unfold createAndLoad at h
  rcases hc : db.createDoltTable s doltdb.SchemasTableName root SchemasTableSchema
    with ⟨_ | e, s2⟩
  · rw [hc] at h
    simp only at h
    rcases hr : db.GetRoot s2 with e | root2
    · simp [hr] at h
    · rcases ht : db.GetTableInsensitiveWithRoot s2 root2 doltdb.SchemasTableName
        with e | _ | t2
      · simp [hr, ht] at h
      · simp [hr, ht] at h
      · simp [hr, ht] at h
        obtain ⟨h1, h2⟩ := h
        subst h1 h2
        exact ⟨rfl, root2, hr, ht⟩
  · rw [hc] at h
    simp at h

/-- Claim C9.  When no dolt_schemas table exists and `GetOrCreateDoltSchemasTable` succeeds,
then `createDoltTable` was called for the name dolt_schemas with the fixed current schema
and succeeded, the state left is the state that call left, the handle returned is the one
the lookup finds in that state, and on the logging database that one call is all the log
gains: nothing is dropped, no inserter is opened and no row is inserted.  The fixed schema
has the six columns type, name, fragment, created_at, modified_at, metadata, in that
order, with type and name as its primary key. -/
theorem create_when_absent (db : Database σ ρ τ ε δ) (s s1 : σ) (root : ρ) (t : τ)
    (hroot : db.GetRoot s = Except.ok root)
    (habsent : db.GetTableInsensitiveWithRoot s root doltdb.SchemasTableName = Except.ok none)
    (hsucc : GetOrCreateDoltSchemasTable db s = (Except.ok t, s1)) :
    db.createDoltTable s "dolt_schemas" root SchemasTableSchema = (none, s1)
    ∧ (∃ root2, db.GetRoot s1 = Except.ok root2
        ∧ db.GetTableInsensitiveWithRoot s1 root2 "dolt_schemas" = Except.ok (some t))
    ∧ (∀ log : List (Call ρ τ),
        GetOrCreateDoltSchemasTable (traced db) (s, log)
          = (Except.ok t, (s1, log ++ [Call.createDoltTable "dolt_schemas" root
              SchemasTableSchema])))
    ∧ SchemasTableSchema.map (fun c => c.Name)
        = ["type", "name", "fragment", "created_at", "modified_at", "metadata"]
    ∧ (SchemasTableSchema.filter (fun c => c.IsPartOfPK)).map (fun c => c.Name)
        = ["type", "name"] := by
  have h0 : createAndLoad db root [] s = (Except.ok t, s1) := by
    simpa [GetOrCreateDoltSchemasTable, hroot, habsent] using hsucc
  obtain ⟨hc, root2, hr, ht⟩ := createAndLoad_nil_ok db s s1 root t h0
  refine ⟨hc, ⟨root2, hr, ht⟩, ?_, by decide, by decide⟩
  intro log
  have hc1 : db.createDoltTable s doltdb.SchemasTableName root SchemasTableSchema
      = (none, s1) := hc
  have ht1 : db.GetTableInsensitiveWithRoot s1 root2 doltdb.SchemasTableName
      = Except.ok (some t) := ht
  show GetOrCreateDoltSchemasTable (traced db) (s, log)
    = (Except.ok t, (s1, log ++ [Call.createDoltTable doltdb.SchemasTableName root
        SchemasTableSchema]))
  simp [GetOrCreateDoltSchemasTable, createAndLoad, traced, hroot, habsent, hc1, hr, ht1]

/-- Claim C9 on the empty database: the call succeeds and leaves one table, named
dolt_schemas, with the current schema and no rows. -/
theorem create_when_absent_witness :
    memDb.createDoltTable [] "dolt_schemas" [] SchemasTableSchema
      = (none, [("dolt_schemas", ⟨SchemasTableSchema, []⟩)])
    ∧ GetOrCreateDoltSchemasTable (traced memDb) ([], [])
      = (Except.ok ⟨"dolt_schemas", SchemasTableSchema⟩,
          ([("dolt_schemas", ⟨SchemasTableSchema, []⟩)],
            [Call.createDoltTable "dolt_schemas" [] SchemasTableSchema]))
    ∧ Mem.tableRows [("dolt_schemas", ⟨SchemasTableSchema, []⟩)] "dolt_schemas" = some [] :=
  have h := create_when_absent memDb []
    [("dolt_schemas", ⟨SchemasTableSchema, []⟩)] [] ⟨"dolt_schemas", SchemasTableSchema⟩
    (by rfl) (by rfl) (by rfl)
  ⟨h.1, h.2.2.1 [], by rfl⟩

/-- A migration tail that succeeded has dropped the table: the state it returns is the state
`DropTable` left, and the root it returns is the root of that state. -/
theorem dropAndReload_ok (db : Database σ ρ τ ε δ) (s s1 : σ) (root1 : ρ)
    (rows rowsToAdd : List sql.Row)
    (h : dropAndReload db rows s = (Except.ok (root1, rowsToAdd), s1)) :
    db.DropTable s doltdb.SchemasTableName = (none, s1) ∧ db.GetRoot s1 = Except.ok root1
    ∧ rowsToAdd = rows := by
  unfold dropAndReload at h
  rcases hd : db.DropTable s doltdb.SchemasTableName with ⟨_ | e, s2⟩
  · rw [hd] at h
    simp only at h
    rcases hr : db.GetRoot s2 with e | r
    · simp [hr] at h
    · simp [hr] at h
      obtain ⟨⟨h1, h2⟩, h3⟩ := h
      subst h1 h2 h3
      exact ⟨rfl, hr, rfl⟩
  · rw [hd] at h
    simp at h

/-- A v1 migration that succeeded has dropped the table. -/
theorem migrateV1_ok_dropped (db : Database σ ρ τ ε δ) (s s1 : σ) (root root1 : ρ) (tbl : τ)
    (rowsToAdd : List sql.Row)
    (h : migrateV1SchemasTableToV3 db root tbl s = (Except.ok (root1, rowsToAdd), s1)) :
    db.DropTable s doltdb.SchemasTableName = (none, s1) := by
  unfold migrateV1SchemasTableToV3 at h
  rcases hd : db.GetRowData s tbl with e | entries
  · simp [hd] at h
  · rcases hi : IterAll (migrateV1Callback db tbl) entries [] with e | rows
    · simp [hd, hi] at h
    · simp only [hd, hi] at h
      exact (dropAndReload_ok db s s1 root1 rows rowsToAdd h).1

/-- A v2 migration that succeeded has dropped the table. -/
theorem migrateV2_ok_dropped (db : Database σ ρ τ ε δ) (s s1 : σ) (root root1 : ρ) (tbl : τ)
    (rowsToAdd : List sql.Row)
    (h : migrateV2SchemasTableToV3 db root tbl s = (Except.ok (root1, rowsToAdd), s1)) :
    db.DropTable s doltdb.SchemasTableName = (none, s1) := by
  unfold migrateV2SchemasTableToV3 at h
  rcases hd : db.GetRowData s tbl with e | entries
  · simp [hd] at h
  · rcases hi : IterAll (migrateV2Callback db tbl) entries [] with e | rows
    · simp [hd, hi] at h
    · simp only [hd, hi] at h
      exact (dropAndReload_ok db s s1 root1 rows rowsToAdd h).1

/-- Claim C4 as stated fails: the migration is not atomic.  With an injected `Insert`
failure on the v1 table of `TestV1SchemaTableRecreation` the call returns the error, and
the database it leaves behind is not the one it started from: the legacy table with its
two rows is gone and an empty table with the current schema stands in its place.  The same
happens without injection when the store refuses a row: of two v2 rows that share
`(type, name)` the first is loaded, the second is refused, and the legacy table is gone. -/
theorem insert_failure_not_atomic :
    GetOrCreateDoltSchemasTable (failingInsert memDb (Err.other "injected"))
        [("dolt_schemas", Mem.v1Table)]
      = (Except.error (Err.other "injected"), [("dolt_schemas", ⟨SchemasTableSchema, []⟩)])
    ∧ [("dolt_schemas", (⟨SchemasTableSchema, []⟩ : Mem.Table))]
        ≠ [("dolt_schemas", Mem.v1Table)]
    ∧ GetOrCreateDoltSchemasTable memDb [("dolt_schemas", Mem.dupV2Table)]
      = (Except.error (Err.other "duplicate primary key given"),
          [("dolt_schemas", ⟨SchemasTableSchema,
            [⟨[(1, Value.str "view"), (2, Value.str "v")],
              [(3, Value.str "SELECT 1;"), (4, epoch), (5, epoch), (6, Value.str "")]⟩]⟩)])
    ∧ [("dolt_schemas", (⟨SchemasTableSchema,
            [⟨[(1, Value.str "view"), (2, Value.str "v")],
              [(3, Value.str "SELECT 1;"), (4, epoch), (5, epoch), (6, Value.str "")]⟩]⟩ :
              Mem.Table))]
        ≠ [("dolt_schemas", Mem.dupV2Table)] := by
  refine ⟨by rfl, by decide, by rfl, by decide⟩

/-- Claim C4, amended.  When the migration of a legacy table succeeded, the new table was
created and found, and then an `Insert` fails, or all succeed and `Close` fails, the call
returns that error.  The database is not restored: `DropTable` had already removed the
legacy table, `createDoltTable` had already created the new one, and the state left behind
is the one the attempted inserts and `Close` left. -/
theorem insert_failure_surfaces (db : Database σ ρ τ ε δ) (s s1 s2 : σ) (root root1 root2 : ρ)
    (tbl t : τ) (rows : List sql.Row) (err : Err)
    (hroot : db.GetRoot s = Except.ok root)
    (htbl : db.GetTableInsensitiveWithRoot s root doltdb.SchemasTableName
      = Except.ok (some tbl))
    (hmig : ((db.Schema tbl).length = 3
        ∧ migrateV1SchemasTableToV3 db root tbl s = (Except.ok (root1, rows), s1))
      ∨ ((db.Schema tbl).length = 4
        ∧ migrateV2SchemasTableToV3 db root tbl s = (Except.ok (root1, rows), s1)))
    (hcreate : db.createDoltTable s1 doltdb.SchemasTableName root1 SchemasTableSchema
      = (none, s2))
    (hroot2 : db.GetRoot s2 = Except.ok root2)
    (htbl2 : db.GetTableInsensitiveWithRoot s2 root2 doltdb.SchemasTableName
      = Except.ok (some t))
    (hrows : rows ≠ [])
    (hfail : (insertRows db t rows (db.Inserter s2 t)).1 = some err
      ∨ ((insertRows db t rows (db.Inserter s2 t)).1 = none
        ∧ (db.Close (insertRows db t rows (db.Inserter s2 t)).2 t).1 = some err)) :
    GetOrCreateDoltSchemasTable db s
      = (Except.error err, (db.Close (insertRows db t rows (db.Inserter s2 t)).2 t).2)
    ∧ db.DropTable s doltdb.SchemasTableName = (none, s1) := by
  have hlen : ¬ rows.length = 0 := by
    intro h
    exact hrows (List.length_eq_zero.mp h)
  have hbulk : bulkInsert db t rows s2
      = (some err, (db.Close (insertRows db t rows (db.Inserter s2 t)).2 t).2) := by
    unfold bulkInsert
    rcases hi : insertRows db t rows (db.Inserter s2 t) with ⟨r, s3⟩
    rw [hi] at hfail
    rcases hc : db.Close s3 t with ⟨c, s4⟩
    rw [hc] at hfail
    rcases hfail with h | ⟨h1, h2⟩
    · simp only at h
      subst h
      simp [hc]
    · simp only at h1 h2
      subst h1 h2
      simp [hc]
  have hcl : createAndLoad db root1 rows s1
      = (Except.error err, (db.Close (insertRows db t rows (db.Inserter s2 t)).2 t).2) := by
    simp [createAndLoad, hcreate, hroot2, htbl2, hlen, hbulk]
  rcases hmig with ⟨h3, hm⟩ | ⟨h4, hm⟩
  · refine ⟨?_, migrateV1_ok_dropped db s s1 root root1 tbl rows hm⟩
    simp [GetOrCreateDoltSchemasTable, hroot, htbl, h3, hm, afterMigration, hcl]
  · refine ⟨?_, migrateV2_ok_dropped db s s1 root root1 tbl rows hm⟩
    simp [GetOrCreateDoltSchemasTable, hroot, htbl, h4, hm, afterMigration, hcl]

/-- Claim C4, amended, on the v1 table of `TestV1SchemaTableRecreation` with an injected
`Insert` failure. -/
theorem insert_failure_surfaces_witness :
    GetOrCreateDoltSchemasTable (failingInsert memDb (Err.other "injected"))
        [("dolt_schemas", Mem.v1Table)]
      = (Except.error (Err.other "injected"),
          ((failingInsert memDb (Err.other "injected")).Close
            (insertRows (failingInsert memDb (Err.other "injected"))
              ⟨"dolt_schemas", SchemasTableSchema⟩
              [[Value.str "view", Value.str "view1", Value.str "SELECT v1 FROM test;",
                epoch, epoch, Value.str ""],
               [Value.str "view", Value.str "view2", Value.str "SELECT v2 FROM test;",
                epoch, epoch, Value.str ""]]
              ((failingInsert memDb (Err.other "injected")).Inserter
                [("dolt_schemas", ⟨SchemasTableSchema, []⟩)]
                ⟨"dolt_schemas", SchemasTableSchema⟩)).2
            ⟨"dolt_schemas", SchemasTableSchema⟩).2)
    ∧ (failingInsert memDb (Err.other "injected")).DropTable
        [("dolt_schemas", Mem.v1Table)] doltdb.SchemasTableName = (none, []) :=
  insert_failure_surfaces (failingInsert memDb (Err.other "injected"))
    [("dolt_schemas", Mem.v1Table)] [] [("dolt_schemas", ⟨SchemasTableSchema, []⟩)]
    [("dolt_schemas", Mem.v1Table)] [] [("dolt_schemas", ⟨SchemasTableSchema, []⟩)]
    ⟨"dolt_schemas", Mem.v1Schema⟩ ⟨"dolt_schemas", SchemasTableSchema⟩
    [[Value.str "view", Value.str "view1", Value.str "SELECT v1 FROM test;",
      epoch, epoch, Value.str ""],
     [Value.str "view", Value.str "view2", Value.str "SELECT v2 FROM test;",
      epoch, epoch, Value.str ""]]
    (Err.other "injected") (by rfl) (by rfl) (Or.inl ⟨by decide, by rfl⟩) (by rfl) (by rfl)
    (by rfl) (by decide) (Or.inl (by rfl))

end GetOrCreate

section FragmentLookup

variable {τ : Type}

/-- The loop over the indexes finds nothing exactly when no index has the id `PRIMARY`. -/
theorem findPrimaryIndex_eq_none_iff (indexes : List Index) :
    findPrimaryIndex indexes = none ↔ ∀ i ∈ indexes, i.ID ≠ "PRIMARY" := by
  induction indexes with
  | nil => simp [findPrimaryIndex]
  | cons x xs ih =>
    by_cases hx : x.ID = "PRIMARY"
    · simp [findPrimaryIndex, hx]
    · simp [findPrimaryIndex, hx, ih]

/-- The loop over the indexes finds the first index whose id is `PRIMARY`. -/
theorem findPrimaryIndex_first (pre : List Index) (index : Index) (post : List Index)
    (hpre : ∀ i ∈ pre, i.ID ≠ "PRIMARY") (hid : index.ID = "PRIMARY") :
    findPrimaryIndex (pre ++ index :: post) = some index := by
  induction pre with
  | nil => simp [findPrimaryIndex, hid]
  | cons x xs ih =>
    have hx : ¬ x.ID = "PRIMARY" := hpre x (List.mem_cons_self x xs)
    simp only [List.cons_append, findPrimaryIndex, hx, if_false]
    exact ih (fun i hi => hpre i (List.mem_cons_of_mem x hi))

/-- An index found by the loop has the id `PRIMARY` and no index before it has. -/
theorem findPrimaryIndex_eq_some (indexes : List Index) (index : Index)
    (h : findPrimaryIndex indexes = some index) :
    ∃ (pre post : List Index), indexes = pre ++ index :: post
      ∧ (∀ i ∈ pre, i.ID ≠ "PRIMARY") ∧ index.ID = "PRIMARY" := by
  induction indexes with
  | nil => simp [findPrimaryIndex] at h
  | cons x xs ih =>
    by_cases hx : x.ID = "PRIMARY"
    · simp only [findPrimaryIndex, hx, if_true, Option.some.injEq] at h
      subst h
      exact ⟨[], xs, rfl, by simp, hx⟩
    · simp only [findPrimaryIndex, hx, if_false] at h
      obtain ⟨pre, post, h1, h2, h3⟩ := ih h
      refine ⟨x :: pre, post, by simp [h1], ?_, h3⟩
      intro i hi
      rcases List.mem_cons.mp hi with h4 | h4
      · subst h4
        exact hx
      · exact h2 i h4

/-- Claim C8 as stated fails: `fragFromSchemasTable` also returns an error when no
underlying operation failed.  On a table whose `GetIndexes` succeeds with one index, of
id `fragment`, and on a table whose `GetIndexes` succeeds with no index, the result is
the error of the function itself: no index has the id `PRIMARY`. -/
theorem missing_primary_index_is_error :
    Mem.secondaryOnly ⟨"dolt_schemas", SchemasTableSchema⟩ = Except.ok [Mem.fragmentIndex]
    ∧ Mem.fragmentIndex.ID = "fragment"
    ∧ fragFromSchemasTable Mem.secondaryOnly ⟨"dolt_schemas", SchemasTableSchema⟩ "view" "view1"
      = (none, false, some (Err.noPrimaryIndex "dolt_schemas"))
    ∧ Mem.noIndexes ⟨"dolt_schemas", SchemasTableSchema⟩ = Except.ok []
    ∧ fragFromSchemasTable Mem.noIndexes ⟨"dolt_schemas", SchemasTableSchema⟩ "view" "view1"
      = (none, false, some (Err.noPrimaryIndex "dolt_schemas")) := by
  refine ⟨by rfl, by rfl, by rfl, by rfl, by rfl⟩

/-- Claim C8, amended.  Let `GetIndexes` succeed.  When `index` is the first index whose id
is `PRIMARY` and its `Get` and `RowIter` succeed, `fragFromSchemasTable` returns
`(row, true, nil)` when the first `Next` of the iterator yields `row`, and
`(nil, false, nil)` when that first `Next` returns `io.EOF`.  When no index has the id
`PRIMARY` it returns the error "could not find primary key index".  It returns a non-nil
error only when `GetIndexes` returned that error, or no index has the id `PRIMARY`, or
the `Get` of the first index with that id, its `RowIter` or its `Next` (other than with
`io.EOF`) returned that error. -/
theorem fragFromSchemasTable_result (GetIndexes : τ → Except Err (List Index)) (tbl : τ)
    (fragType name : String) :
    (∀ (pre : List Index) (index : Index) (post : List Index) (dil : IndexLookup)
        (rowIter : RowIter),
        GetIndexes tbl = Except.ok (pre ++ index :: post) →
        (∀ i ∈ pre, i.ID ≠ "PRIMARY") → index.ID = "PRIMARY" →
        index.Get fragType name = Except.ok dil → dil.RowIter = Except.ok rowIter →
        (∀ row, rowIter.Next = Except.ok row →
          fragFromSchemasTable GetIndexes tbl fragType name = (some row, true, none))
        ∧ (rowIter.Next = Except.error Err.eof →
          fragFromSchemasTable GetIndexes tbl fragType name = (none, false, none)))
    ∧ (∀ indexes : List Index, GetIndexes tbl = Except.ok indexes →
        (∀ i ∈ indexes, i.ID ≠ "PRIMARY") →
        fragFromSchemasTable GetIndexes tbl fragType name
          = (none, false, some (Err.noPrimaryIndex "dolt_schemas")))
    ∧ (∀ err : Err, (fragFromSchemasTable GetIndexes tbl fragType name).2.2 = some err →
        GetIndexes tbl = Except.error err
        ∨ (∃ indexes, GetIndexes tbl = Except.ok indexes
            ∧ (∀ i ∈ indexes, i.ID ≠ "PRIMARY")
            ∧ err = Err.noPrimaryIndex "dolt_schemas")
        ∨ (∃ (pre : List Index) (index : Index) (post : List Index),
            GetIndexes tbl = Except.ok (pre ++ index :: post)
            ∧ (∀ i ∈ pre, i.ID ≠ "PRIMARY") ∧ index.ID = "PRIMARY"
            ∧ (index.Get fragType name = Except.error err
              ∨ ∃ dil, index.Get fragType name = Except.ok dil
                ∧ (dil.RowIter = Except.error err
                  ∨ ∃ rowIter, dil.RowIter = Except.ok rowIter
                    ∧ rowIter.Next = Except.error err ∧ err ≠ Err.eof)))) := by
  refine ⟨?_, ?_, ?_⟩
  · intro pre index post dil rowIter h1 hpre hid h3 h4
    have h2 := findPrimaryIndex_first pre index post hpre hid
    constructor
    · intro row h5
      simp [fragFromSchemasTable, h1, h2, h3, h4, h5]
    · intro h5
      simp [fragFromSchemasTable, h1, h2, h3, h4, h5]
  · intro indexes h1 hnone
    have h2 := (findPrimaryIndex_eq_none_iff indexes).mpr hnone
    simp only [fragFromSchemasTable, h1, h2]
    rfl
  · intro err h
    unfold fragFromSchemasTable at h
    rcases h1 : GetIndexes tbl with e | indexes
    · simp [h1] at h
      exact Or.inl (by rw [h])
    · right
      rcases h2 : findPrimaryIndex indexes with _ | index
      · simp [h1, h2] at h
        exact Or.inl ⟨indexes, rfl, (findPrimaryIndex_eq_none_iff indexes).mp h2, h.symm⟩
      · right
        obtain ⟨pre, post, hsplit, hpre, hid⟩ := findPrimaryIndex_eq_some indexes index h2
        refine ⟨pre, index, post, by rw [hsplit], hpre, hid, ?_⟩
        rcases h3 : index.Get fragType name with e | dil
        · simp [h1, h2, h3] at h
          exact Or.inl (by rw [h])
        · right
          refine ⟨dil, rfl, ?_⟩
          rcases h4 : dil.RowIter with e | rowIter
          · simp [h1, h2, h3, h4] at h
            exact Or.inl (by rw [h])
          · right
            refine ⟨rowIter, rfl, ?_⟩
            rcases h5 : rowIter.Next with e | row
            · cases e <;> simp [h1, h2, h3, h4, h5] at h <;> simp [← h]
            · simp [h1, h2, h3, h4, h5] at h

/-- Claim C8, amended, on the current table with one view, whose indexes are a secondary
index followed by the primary index: the secondary index is passed over, the view is
found, and an unknown name is not found and is no error. -/
theorem fragFromSchemasTable_result_witness :
    fragFromSchemasTable (Mem.GetIndexes [("dolt_schemas", Mem.v3Table)])
        ⟨"dolt_schemas", SchemasTableSchema⟩ "view" "view1"
      = (some [Value.str "view", Value.str "view1", Value.str "SELECT v1 FROM test;", epoch,
          epoch, Value.str ""], true, none)
    ∧ fragFromSchemasTable (Mem.GetIndexes [("dolt_schemas", Mem.v3Table)])
        ⟨"dolt_schemas", SchemasTableSchema⟩ "view" "nope"
      = (none, false, none) :=
  ⟨((fragFromSchemasTable_result (Mem.GetIndexes [("dolt_schemas", Mem.v3Table)])
        ⟨"dolt_schemas", SchemasTableSchema⟩ "view" "view1").1
      [Mem.fragmentIndex]
      (Mem.primaryIndex [("dolt_schemas", Mem.v3Table)] ⟨"dolt_schemas", SchemasTableSchema⟩)
      [] _ _ (by rfl) (fun i hi => by simp at hi; subst hi; decide) (by rfl) (by rfl)
      (by rfl)).1 _ (by rfl),
   ((fragFromSchemasTable_result (Mem.GetIndexes [("dolt_schemas", Mem.v3Table)])
        ⟨"dolt_schemas", SchemasTableSchema⟩ "view" "nope").1
      [Mem.fragmentIndex]
      (Mem.primaryIndex [("dolt_schemas", Mem.v3Table)] ⟨"dolt_schemas", SchemasTableSchema⟩)
      [] _ _ (by rfl) (fun i hi => by simp at hi; subst hi; decide) (by rfl) (by rfl)
      (by rfl)).2 (by rfl)⟩

end FragmentLookup

section KeySpec

open cli

/-- Under the one-column header `last` every token is one group and gives the key tuple of
its own value. -/
theorem parseGroups_last (vs : List String) :
    parseGroups singleKeySch [schema.NewColumn "last" 1 schema.NomsKind.StringKind true] vs
      = Except.ok (vs.map (fun v => [(1, Value.str v)])) := by
  induction vs with
  | nil => rfl
  | cons v vs ih =>
    simp only [singleKeySch, schema.NewColumn] at ih
    simp [parseGroups, ih, parseGroup, buildMapping, parseValue, EncodeKey, canonical, setTag,
      singleKeySch, schema.NewColumn]

/-- In the schema `singleKeySch` a name that is not the name of a column does not resolve. -/
theorem resolve_single_none (name : String)
    (h : name ∉ singleKeySch.map (fun c => c.Name)) :
    resolve singleKeySch name = none := by
  have h0 : name ≠ "last" := by
    intro e
    apply h
    simp [singleKeySch, schema.NewColumn, e]
  have h1 : ("last" == name) = false := beq_eq_false_iff_ne.mpr (fun e => h0 e.symm)
  simp [resolve, singleKeySch, schema.NewColumn, List.find?, h1]

/-- Claim C10.  For the schema whose single primary-key column is `last` (tag 1): the
arguments `"last" :: vs` give, without an error, one key tuple per token of `vs`, in
order, the i-th being the canonical key tuple of the mapping from `last` to `vs[i]`; so
`["last"]` gives the empty result and in `["last", "last"]` the second token is a value.
A single token that is not a column name gives the one key tuple of that token. -/
theorem ParseKeyValues_header_rule :
    (∀ vs : List String,
        ParseKeyValues singleKeySch ("last" :: vs)
          = Except.ok (vs.map (fun v => [(1, Value.str v)])))
    ∧ (∀ v : String, EncodeKey singleKeySch [(1, Value.str v)] = Except.ok [(1, Value.str v)])
    ∧ ParseKeyValues singleKeySch ["last"] = Except.ok []
    ∧ ParseKeyValues singleKeySch ["last", "last"] = Except.ok [[(1, Value.str "last")]]
    ∧ (∀ v : String, v ∉ singleKeySch.map (fun c => c.Name) →
        ParseKeyValues singleKeySch [v] = Except.ok [[(1, Value.str v)]]) := by
  refine ⟨?_, ?_, by rfl, by rfl, ?_⟩
  · intro vs
    cases vs with
    | nil => rfl
    | cons v vs =>
      have h : resolveAll singleKeySch (splitComma "last")
          = some [schema.NewColumn "last" 1 schema.NomsKind.StringKind true] := by rfl
      simp only [ParseKeyValues, h]
      exact parseGroups_last (v :: vs)
  · intro v
    simp [EncodeKey, canonical, setTag, singleKeySch, schema.NewColumn]
  · intro v hv
    have h : resolve singleKeySch v = none := resolve_single_none v hv
    have hd : defaultHeader singleKeySch
        = [schema.NewColumn "last" 1 schema.NomsKind.StringKind true] := by rfl
    simp only [ParseKeyValues, h, hd]
    exact parseGroups_last [v]

/-- Claim C10 on the tokens of `TestParseKeyValues`, and on a single token with a comma. -/
theorem ParseKeyValues_header_rule_witness :
    ParseKeyValues singleKeySch ["last", "robertson", "johnson"]
      = Except.ok [[(1, Value.str "robertson")], [(1, Value.str "johnson")]]
    ∧ ParseKeyValues singleKeySch ["robertson"] = Except.ok [[(1, Value.str "robertson")]]
    ∧ ParseKeyValues singleKeySch ["last,last"] = Except.ok [[(1, Value.str "last,last")]] :=
  ⟨ParseKeyValues_header_rule.1 ["robertson", "johnson"],
   ParseKeyValues_header_rule.2.2.2.2 "robertson" (by decide),
   ParseKeyValues_header_rule.2.2.2.2 "last,last" (by decide)⟩

/-- The cases of `TestParseKeyValues`: on each argument list of the test the parser gives
the expected key tuples and no error. -/
theorem ParseKeyValues_test_cases :
    ParseKeyValues singleKeySch ["robertson"] = Except.ok [[(1, Value.str "robertson")]]
    ∧ ParseKeyValues singleKeySch ["last", "robertson"]
      = Except.ok [[(1, Value.str "robertson")]]
    ∧ ParseKeyValues singleKeySch ["last"] = Except.ok []
    ∧ ParseKeyValues singleKeySch ["last", "last"] = Except.ok [[(1, Value.str "last")]]
    ∧ ParseKeyValues singleKeySch ["last", "robertson", "johnson"]
      = Except.ok [[(1, Value.str "robertson")], [(1, Value.str "johnson")]]
    ∧ ParseKeyValues testKeySch ["last"] = Except.ok []
    ∧ ParseKeyValues testKeySch ["last", "robertson", "johnson"]
      = Except.ok [[(1, Value.str "robertson")], [(1, Value.str "johnson")]]
    ∧ ParseKeyValues testKeySch ["first,last", "robert,robertson", "john,johnson"]
      = Except.ok [[(0, Value.str "robert"), (1, Value.str "robertson")],
          [(0, Value.str "john"), (1, Value.str "johnson")]] := by
  refine ⟨by rfl, by rfl, by rfl, by rfl, by rfl, by rfl, by rfl, by rfl⟩

end KeySpec

/-! ## Migration on the in-memory database -/

namespace Mem

/-- A table name is equal to itself up to case. -/
theorem sameName_self (n : String) : sameName n n = true := by
  simp [sameName]

/-- A table that was put into a root is the table found under its name. -/
theorem getTable_putTable (s : Root) (n : String) (t : Table) :
    getTable (putTable s n t) n = some t := by
  simp [putTable, getTable, sameName_self]

/-- After the removal of a name the root has no table of that name. -/
theorem getTable_removeTable (s : Root) (n : String) :
    getTable (removeTable s n) n = none := by
  induction s with
  | nil => rfl
  | cons p rest ih =>
    unfold removeTable at ih ⊢
    rw [List.filter_cons]
    cases h : sameName p.1 n with
    | true => simpa using ih
    | false =>
      obtain ⟨a, b⟩ := p
      simp only [Bool.not_false, if_true, getTable]
      simp only at h
      simp [h, ih]

/-- The decoding of the migrations, run on `memDb`, is `decodeEntry` for the schema of the
handle. -/
theorem decodeRow_memDb (h : Handle) (e : Entry) :
    decodeRow memDb h e = decodeEntry h.sch e := by
  simp only [decodeRow, memDb, decodeEntry, DoltRowToSqlRow]
  cases FromNoms h.sch e <;> rfl

/-- A list of successes collects to its values. -/
theorem collect_map_ok {α : Type} (xs : List α) :
    collect (xs.map Except.ok) = some xs := by
  induction xs with
  | nil => rfl
  | cons x xs ih => simp [collect, ih]

/-- A migrated row whose type and name are not `nil` encodes to `entry6`. -/
theorem encode_row6 (x : Value × Value × Value) (h1 : x.1 ≠ Value.null) (h2 : x.2.1 ≠ Value.null) :
    SqlRowToDoltRow SchemasTableSchema (row6 x) = Except.ok (entry6 x) := by
  obtain ⟨a, b, f⟩ := x
  simp only at h1 h2
  by_cases hf : f = Value.null
  · simp [SqlRowToDoltRow, SchemasTableSchema, row6, entry6, key6, schema.NewColumn,
      schema.NewColumnNotNull, h1, h2, hf, epoch]
  · simp [SqlRowToDoltRow, SchemasTableSchema, row6, entry6, key6, schema.NewColumn,
      schema.NewColumnNotNull, h1, h2, hf, epoch]

/-- A migrated row that encodes has a type and a name that are not `nil`. -/
theorem encode_row6_ok (x : Value × Value × Value) (e : Entry)
    (h : SqlRowToDoltRow SchemasTableSchema (row6 x) = Except.ok e) :
    x.1 ≠ Value.null ∧ x.2.1 ≠ Value.null := by
  obtain ⟨a, b, f⟩ := x
  by_cases h1 : a = Value.null
  · exfalso
    subst h1
    by_cases hf : f = Value.null <;> by_cases h2 : b = Value.null <;>
      simp [SqlRowToDoltRow, SchemasTableSchema, row6, schema.NewColumn,
        schema.NewColumnNotNull, hf, h2, epoch] at h
  · by_cases h2 : b = Value.null
    · exfalso
      subst h2
      by_cases hf : f = Value.null <;>
        simp [SqlRowToDoltRow, SchemasTableSchema, row6, schema.NewColumn,
          schema.NewColumnNotNull, hf, h1, epoch] at h
    · exact ⟨h1, h2⟩

/-- The stored form of a migrated row decodes to that row. -/
theorem decode_entry6 (x : Value × Value × Value) :
    decodeEntry SchemasTableSchema (entry6 x) = Except.ok (row6 x) := by
  obtain ⟨a, b, f⟩ := x
  by_cases hf : f = Value.null
  · subst hf
    simp [decodeEntry, FromNoms, DoltRowToSqlRow, SchemasTableSchema, entry6, key6, row6,
      schema.NewColumn, schema.NewColumnNotNull, List.lookup, schema.DoltSchemasTypeTag,
      schema.DoltSchemasNameTag, schema.DoltSchemasFragmentTag, schema.DoltSchemasCreatedAtTag,
      schema.DoltSchemasModifiedAtTag, schema.DoltSchemasMetadataTag]
  · simp [decodeEntry, FromNoms, DoltRowToSqlRow, SchemasTableSchema, entry6, key6, row6,
      schema.NewColumn, schema.NewColumnNotNull, List.lookup, schema.DoltSchemasTypeTag,
      schema.DoltSchemasNameTag, schema.DoltSchemasFragmentTag, schema.DoltSchemasCreatedAtTag,
      schema.DoltSchemasModifiedAtTag, schema.DoltSchemasMetadataTag, hf]

/-- Equal key tuples come from equal type and name. -/
theorem key6_inj (x y : Value × Value × Value) (h : key6 x = key6 y) :
    (x.1, x.2.1) = (y.1, y.2.1) := by
  simp [key6] at h
  exact Prod.ext h.1 h.2

/-- When the insert loop of `memDb` loads every migrated row, every row has a type and a
name that are not `nil`. -/
theorem insertRows_ok_nonnull (h : Handle)
    (hs : h.sch = SchemasTableSchema) :
    ∀ (ms : List (Value × Value × Value)) (s s1 : Root),
      insertRows memDb h (ms.map row6) s = (none, s1) →
      ∀ x ∈ ms, x.1 ≠ Value.null ∧ x.2.1 ≠ Value.null := by
  intro ms
  induction ms with
  | nil => intro s s1 _ x hx; simp at hx
  | cons m ms ih =>
    intro s s1 hins x hx
    simp only [List.map_cons, insertRows] at hins
    rcases hi : memDb.Insert s h (row6 m) with ⟨_ | e, s2⟩
    · rw [hi] at hins
      simp only at hins
      rcases List.mem_cons.mp hx with hxm | hxm
      · subst hxm
        rcases he : SqlRowToDoltRow SchemasTableSchema (row6 x) with err | entry
        · simp [memDb, Insert, hs, he] at hi
        · exact encode_row6_ok x entry he
      · exact ih s2 s1 hins x hxm
    · rw [hi] at hins
      simp at hins

/-- Migrated rows with pairwise distinct `(type, name)`, none of them `nil` and none of
them the key of a stored row, are all loaded by the insert loop of `memDb`, and are appended to the stored rows in order. -/
theorem insertRows_distinct (h : Handle)
    (hs : h.sch = SchemasTableSchema) :
    ∀ (ms : List (Value × Value × Value)) (s : Root) (es : List Entry),
      getTable s h.name = some ⟨SchemasTableSchema, es⟩ →
      (∀ x ∈ ms, x.1 ≠ Value.null ∧ x.2.1 ≠ Value.null) →
      (ms.map (fun x => (x.1, x.2.1))).Nodup →
      (∀ e ∈ es, ∀ x ∈ ms, e.key ≠ key6 x) →
      ∃ s1, insertRows memDb h (ms.map row6) s = (none, s1)
        ∧ getTable s1 h.name = some ⟨SchemasTableSchema, es ++ ms.map entry6⟩ := by
  intro ms
  induction ms with
  | nil =>
    intro s es hg _ _ _
    exact ⟨s, rfl, by simpa using hg⟩
  | cons m ms ih =>
    intro s es hg hnn hnd hdisj
    have hm := hnn m (List.mem_cons_self m ms)
    have henc := encode_row6 m hm.1 hm.2
    have hany : es.any (fun e => e.key == (entry6 m).key) = false := by
      rw [List.any_eq_false]
      intro e he
      have := hdisj e he m (List.mem_cons_self m ms)
      simpa [entry6] using this
    have hi : memDb.Insert s h (row6 m)
        = (none, putTable s h.name ⟨SchemasTableSchema, es ++ [entry6 m]⟩) := by
      simp [memDb, Insert, hs, henc, hg, hany]
    simp only [List.map_cons, List.nodup_cons] at hnd
    have hdisj1 : ∀ e ∈ es ++ [entry6 m], ∀ x ∈ ms, e.key ≠ key6 x := by
      intro e he x hx
      rcases List.mem_append.mp he with h1 | h1
      · exact hdisj e h1 x (List.mem_cons_of_mem m hx)
      · simp only [List.mem_singleton] at h1
        subst h1
        intro hk
        apply hnd.1
        have := key6_inj m x hk
        rw [this]
        exact List.mem_map_of_mem (fun x => (x.1, x.2.1)) hx
    obtain ⟨s1, h1, h2⟩ := ih (putTable s h.name ⟨SchemasTableSchema, es ++ [entry6 m]⟩)
      (es ++ [entry6 m]) (getTable_putTable s h.name _)
      (fun x hx => hnn x (List.mem_cons_of_mem m hx)) hnd.2 hdisj1
    refine ⟨s1, ?_, ?_⟩
    · simp only [List.map_cons, insertRows, hi]
      exact h1
    · simpa using h2

/-- A decoded row has one field per column. -/
theorem decodeEntry_length (sch : schema.Schema) (e : Entry) (r : sql.Row)
    (h : decodeEntry sch e = Except.ok r) : r.length = sch.length := by
  unfold decodeEntry at h
  cases hf : FromNoms sch e with
  | error err => simp [hf] at h
  | ok d =>
    simp [hf, DoltRowToSqlRow] at h
    rw [← h]
    simp

/-- Every row of a table that decodes has one field per column. -/
theorem decoded_lengths (sch : schema.Schema) :
    ∀ (es : List Entry) (rows : List sql.Row),
      es.map (decodeEntry sch) = rows.map Except.ok → ∀ r ∈ rows, r.length = sch.length := by
  intro es
  induction es with
  | nil =>
    intro rows h r hr
    cases rows with
    | nil => simp at hr
    | cons a as => simp at h
  | cons e es ih =>
    intro rows h r hr
    cases rows with
    | nil => simp at hr
    | cons a as =>
      simp only [List.map_cons, List.cons.injEq] at h
      rcases List.mem_cons.mp hr with h1 | h1
      · subst h1
        exact decodeEntry_length sch e r h.1
      · exact ih as h.2 r h1

/-- What the v2 callback makes of a row with at least three fields. -/
theorem take3_row6 (r : sql.Row) (h : 3 ≤ r.length) :
    r.take 3 ++ [epoch, epoch, Value.str ""] = row6 (triple r) := by
  match r, h with
  | a :: b :: c :: rest, _ => simp [row6, triple]

/-- What the v1 callback makes of a row with three fields. -/
theorem append_row6 (r : sql.Row) (h : r.length = 3) :
    r ++ [epoch, epoch, Value.str ""] = row6 (triple r) := by
  match r, h with
  | [a, b, c], _ => simp [row6, triple]

/-- Rows with the same type and name have the same first two fields. -/
theorem take2_pair (r r1 : sql.Row) (h : 3 ≤ r.length) (h1 : 3 ≤ r1.length)
    (he : ((triple r).1, (triple r).2.1) = ((triple r1).1, (triple r1).2.1)) :
    r.take 2 = r1.take 2 := by
  match r, h, r1, h1 with
  | a :: b :: c :: rest, _, a1 :: b1 :: c1 :: rest1, _ =>
    simp [triple] at he
    simp [he.1, he.2]

/-- On `memDb`, whose `Close` never fails and changes nothing, the bulk load returns what
the insert loop returns. -/
theorem bulkInsert_memDb (h : Handle) (ms : List sql.Row) (s : Root) :
    bulkInsert memDb h ms s = insertRows memDb h ms s := by
  unfold bulkInsert
  have hI : memDb.Inserter s h = s := rfl
  rw [hI]
  rcases insertRows memDb h ms s with ⟨_ | e, s3⟩ <;> rfl

/-- On `memDb`, in a state without a dolt_schemas table, the second half of
`GetOrCreateDoltSchemasTable` creates the empty table and runs the insert loop on it. -/
theorem createAndLoad_memDb (s1 : Root) (ms : List sql.Row)
    (hnone : getTable s1 doltdb.SchemasTableName = none) :
    createAndLoad memDb s1 ms s1 =
      match insertRows memDb ⟨doltdb.SchemasTableName, SchemasTableSchema⟩ ms
          (putTable s1 doltdb.SchemasTableName ⟨SchemasTableSchema, []⟩) with
      | (some err, s3) => (Except.error err, s3)
      | (none, s3) => (Except.ok ⟨doltdb.SchemasTableName, SchemasTableSchema⟩, s3) := by
  have hg := getTable_putTable s1 doltdb.SchemasTableName ⟨SchemasTableSchema, []⟩
  have hc : memDb.createDoltTable s1 doltdb.SchemasTableName s1 SchemasTableSchema
      = (none, putTable s1 doltdb.SchemasTableName ⟨SchemasTableSchema, []⟩) := by
    simp [memDb, createDoltTable, hnone]
  have hr : memDb.GetRoot (putTable s1 doltdb.SchemasTableName ⟨SchemasTableSchema, []⟩)
      = Except.ok (putTable s1 doltdb.SchemasTableName ⟨SchemasTableSchema, []⟩) := rfl
  have hg1 : memDb.GetTableInsensitiveWithRoot
      (putTable s1 doltdb.SchemasTableName ⟨SchemasTableSchema, []⟩)
      (putTable s1 doltdb.SchemasTableName ⟨SchemasTableSchema, []⟩) doltdb.SchemasTableName
      = Except.ok (some ⟨doltdb.SchemasTableName, SchemasTableSchema⟩) := by
    simp [memDb, hg]
  cases ms with
  | nil =>
    simp [createAndLoad, hc, hr, hg1, insertRows]
  | cons m ms =>
    simp only [createAndLoad, hc, hr, hg1, bulkInsert_memDb]
    simp only [List.length_cons, ne_eq, Nat.add_one_ne_zero, not_false_eq_true, if_true]
    generalize insertRows memDb ⟨doltdb.SchemasTableName, SchemasTableSchema⟩ (m :: ms)
      (putTable s1 doltdb.SchemasTableName ⟨SchemasTableSchema, []⟩) = r
    rcases r with ⟨_ | e, s3⟩ <;> rfl

/-- On `memDb`, a legacy table whose rows all decode is dropped and the call continues with
the creation of the new table and the migrated rows. -/
theorem GetOrCreate_memDb_legacy (s : Root) (T : Table) (rows : List sql.Row)
    (hT : getTable s doltdb.SchemasTableName = some T)
    (hver : T.sch.length = 3 ∨ T.sch.length = 4)
    (hdec : T.rows.map (decodeEntry T.sch) = rows.map Except.ok) :
    GetOrCreateDoltSchemasTable memDb s =
      createAndLoad memDb (removeTable s doltdb.SchemasTableName)
        (rows.map (fun r => row6 (triple r))) (removeTable s doltdb.SchemasTableName) := by
  have hlen := decoded_lengths T.sch T.rows rows hdec
  have hdec1 : T.rows.map (decodeRow memDb ⟨doltdb.SchemasTableName, T.sch⟩)
      = rows.map Except.ok := by
    rw [← hdec]
    apply List.map_congr_left
    intro e _
    exact decodeRow_memDb _ e
  have hdrop : dropAndReload memDb (rows.map (fun r => row6 (triple r))) s
      = (Except.ok (removeTable s doltdb.SchemasTableName, rows.map (fun r => row6 (triple r))),
          removeTable s doltdb.SchemasTableName) := by
    simp [dropAndReload, memDb, DropTable, hT]
  rcases hver with h3 | h4
  · have hrows : rows.map (fun r => r ++ [epoch, epoch, Value.str ""])
        = rows.map (fun r => row6 (triple r)) := by
      apply List.map_congr_left
      intro r hr
      exact append_row6 r (by rw [hlen r hr, h3])
    have hmig : migrateV1SchemasTableToV3 memDb s ⟨doltdb.SchemasTableName, T.sch⟩ s
        = (Except.ok (removeTable s doltdb.SchemasTableName,
            rows.map (fun r => row6 (triple r))), removeTable s doltdb.SchemasTableName) := by
      have hd : memDb.GetRowData s ⟨doltdb.SchemasTableName, T.sch⟩ = Except.ok T.rows := by
        simp [memDb, GetRowData, hT]
      simp only [migrateV1SchemasTableToV3, hd,
        IterAll_migrateV1Callback memDb _ T.rows rows [] hdec1, List.nil_append, hrows,
        hdrop]
    have hs : (memDb.Schema ⟨doltdb.SchemasTableName, T.sch⟩).length = 3 := by
      simp [memDb, toSqlSchema, h3]
    have hr : memDb.GetRoot s = Except.ok s := rfl
    have hg : memDb.GetTableInsensitiveWithRoot s s doltdb.SchemasTableName
        = Except.ok (some ⟨doltdb.SchemasTableName, T.sch⟩) := by
      simp [memDb, hT]
    simp only [GetOrCreateDoltSchemasTable, hr, hg, hs, if_true, hmig, afterMigration]
  · have h3 : ∀ r ∈ rows, 3 ≤ r.length := fun r hr => by
      rw [hlen r hr, h4]
      decide
    have hrows : rows.map (fun r => r.take 3 ++ [epoch, epoch, Value.str ""])
        = rows.map (fun r => row6 (triple r)) := by
      apply List.map_congr_left
      intro r hr
      exact take3_row6 r (h3 r hr)
    have hmig : migrateV2SchemasTableToV3 memDb s ⟨doltdb.SchemasTableName, T.sch⟩ s
        = (Except.ok (removeTable s doltdb.SchemasTableName,
            rows.map (fun r => row6 (triple r))), removeTable s doltdb.SchemasTableName) := by
      have hd : memDb.GetRowData s ⟨doltdb.SchemasTableName, T.sch⟩ = Except.ok T.rows := by
        simp [memDb, GetRowData, hT]
      simp only [migrateV2SchemasTableToV3, hd,
        IterAll_migrateV2Callback memDb _ T.rows rows [] hdec1 h3, List.nil_append, hrows,
        hdrop]
    have hs : (memDb.Schema ⟨doltdb.SchemasTableName, T.sch⟩).length = 4 := by
      simp [memDb, toSqlSchema, h4]
    have hr : memDb.GetRoot s = Except.ok s := rfl
    have hg : memDb.GetTableInsensitiveWithRoot s s doltdb.SchemasTableName
        = Except.ok (some ⟨doltdb.SchemasTableName, T.sch⟩) := by
      simp [memDb, hT]
    have hn3 : ¬ (memDb.Schema ⟨doltdb.SchemasTableName, T.sch⟩).length = 3 := by
      rw [hs]
      decide
    simp [GetOrCreateDoltSchemasTable, hr, hg, hs, hmig, afterMigration]

/-- The pair of type and name of a row is read off its first two fields. -/
theorem pair_take2 (r : sql.Row) :
    ((triple r).1, (triple r).2.1)
      = ((r.take 2).getD 0 Value.null, (r.take 2).getD 1 Value.null) := by
  match r with
  | [] => simp [triple]
  | [a] => simp [triple]
  | a :: b :: rest => simp [triple]

/-- When the insert loop of `memDb` loads every migrated row, the rows are appended to the
stored rows in order, their `(type, name)` pairs are pairwise distinct, and none of them
is the key of a row stored before. -/
theorem insertRows_ok_stored (h : Handle) (hs : h.sch = SchemasTableSchema) :
    ∀ (ms : List (Value × Value × Value)) (s s1 : Root) (es : List Entry),
      getTable s h.name = some ⟨SchemasTableSchema, es⟩ →
      insertRows memDb h (ms.map row6) s = (none, s1) →
      getTable s1 h.name = some ⟨SchemasTableSchema, es ++ ms.map entry6⟩
      ∧ (ms.map (fun x => (x.1, x.2.1))).Nodup
      ∧ ∀ e ∈ es, ∀ x ∈ ms, e.key ≠ key6 x := by
  intro ms
  induction ms with
  | nil =>
    intro s s1 es hg hins
    simp only [List.map_nil, insertRows, Prod.mk.injEq, true_and] at hins
    subst hins
    exact ⟨by simpa using hg, by simp, by simp⟩
  | cons m ms ih =>
    intro s s1 es hg hins
    simp only [List.map_cons, insertRows] at hins
    rcases hi : memDb.Insert s h (row6 m) with ⟨_ | e, s2⟩
    · rw [hi] at hins
      simp only at hins
      rcases he : SqlRowToDoltRow SchemasTableSchema (row6 m) with err | entry
      · simp [memDb, Insert, hs, he] at hi
      · have hnn := encode_row6_ok m entry he
        have henc := encode_row6 m hnn.1 hnn.2
        by_cases hany : es.any (fun e => e.key == (entry6 m).key) = true
        · simp [memDb, Insert, hs, henc, hg, hany] at hi
        · have hany1 : es.any (fun e => e.key == (entry6 m).key) = false := by
            simpa using hany
          have hs2 : s2 = putTable s h.name ⟨SchemasTableSchema, es ++ [entry6 m]⟩ := by
            simp [memDb, Insert, hs, henc, hg, hany1] at hi
            exact hi.symm
          subst hs2
          obtain ⟨h1, h2, h3⟩ := ih _ s1 (es ++ [entry6 m]) (getTable_putTable s h.name _) hins
          have hm : ∀ e ∈ es, e.key ≠ key6 m := by
            intro e hmem
            have := (List.any_eq_false.mp hany1) e hmem
            simpa [entry6] using this
          refine ⟨by simpa using h1, ?_, ?_⟩
          · simp only [List.map_cons, List.nodup_cons]
            refine ⟨?_, h2⟩
            intro hmem
            obtain ⟨x, hx, hxm⟩ := List.mem_map.mp hmem
            apply h3 (entry6 m) (by simp) x hx
            simp only [Prod.mk.injEq] at hxm
            simp [entry6, key6, hxm.1, hxm.2]
          · intro e hmem x hx
            rcases List.mem_cons.mp hx with hx1 | hx1
            · subst hx1
              exact hm e hmem
            · exact h3 e (List.mem_append_left _ hmem) x hx1
    · rw [hi] at hins
      simp at hins

end Mem

/-- Claim C3.  On the in-memory database, whose inserter refuses a duplicate primary key:
take a legacy dolt_schemas table (3 or 4 columns) whose N stored rows decode to `rows`.
Whenever `GetOrCreateDoltSchemasTable` succeeds, the handle it returns names dolt_schemas
and has the current schema of six columns, and the rows read through that handle in the
state left behind (`GetRowData`, decoded as the migrations decode) are exactly N: one
per original row, its type, name and fragment followed by `epoch`, `epoch` and the empty
string (`memDb` keeps them in the order of insertion).  A successful call also means
that the rows were pairwise distinct in `(type, name)`: a v2 table whose rows share a
`(type, name)` pair is refused by the inserter of the table keyed by `(type, name)`,
so for it the call is not successful.  The call does succeed when the rows are
pairwise distinct in `(type, name)` and none has `nil` as its type or name. -/
theorem migration_complete (s : Mem.Root) (T : Mem.Table) (rows : List sql.Row)
    (hT : Mem.getTable s "dolt_schemas" = some T)
    (hver : T.sch.length = 3 ∨ T.sch.length = 4)
    (hdec : T.rows.map (Mem.decodeEntry T.sch) = rows.map Except.ok) :
    (memDb.GetRowData s ⟨"dolt_schemas", T.sch⟩ = Except.ok T.rows
      ∧ T.rows.map (decodeRow memDb ⟨"dolt_schemas", T.sch⟩) = rows.map Except.ok
      ∧ T.rows.length = rows.length)
    ∧ (∀ (t : Mem.Handle) (s1 : Mem.Root),
        GetOrCreateDoltSchemasTable memDb s = (Except.ok t, s1) →
        t.name = "dolt_schemas" ∧ t.sch = SchemasTableSchema ∧ (memDb.Schema t).length = 6
        ∧ (∃ entries : List Mem.Entry, memDb.GetRowData s1 t = Except.ok entries
            ∧ entries.map (decodeRow memDb t)
              = (rows.map (fun r => r.take 3 ++ [epoch, epoch, Value.str ""])).map Except.ok
            ∧ entries.length = rows.length)
        ∧ (rows.map (fun r => r.take 2)).Nodup)
    ∧ ((rows.map (fun r => r.take 2)).Nodup →
        (∀ r ∈ rows, r.getD 0 Value.null ≠ Value.null ∧ r.getD 1 Value.null ≠ Value.null) →
        ∃ (t : Mem.Handle) (s1 : Mem.Root),
          GetOrCreateDoltSchemasTable memDb s = (Except.ok t, s1)) := by
  have hT1 : Mem.getTable s doltdb.SchemasTableName = some T := hT
  have hlen := Mem.decoded_lengths T.sch T.rows rows hdec
  have h3 : ∀ r ∈ rows, 3 ≤ r.length := fun r hr => by
    have := hlen r hr
    omega
  have hG := Mem.GetOrCreate_memDb_legacy s T rows hT1 hver hdec
  have hC := Mem.createAndLoad_memDb (Mem.removeTable s doltdb.SchemasTableName)
    (rows.map (fun r => Mem.row6 (Mem.triple r)))
    (Mem.getTable_removeTable s doltdb.SchemasTableName)
  have hms : rows.map (fun r => Mem.row6 (Mem.triple r)) = (rows.map Mem.triple).map Mem.row6 := by
    simp [List.map_map]
  have hmig : rows.map (fun r => r.take 3 ++ [epoch, epoch, Value.str ""])
      = (rows.map Mem.triple).map Mem.row6 := by
    rw [← hms]
    apply List.map_congr_left
    intro r hr
    exact Mem.take3_row6 r (h3 r hr)
  have hg0 := Mem.getTable_putTable (Mem.removeTable s doltdb.SchemasTableName)
    doltdb.SchemasTableName ⟨SchemasTableSchema, []⟩
  rw [hms] at hC
  refine ⟨⟨?_, ?_, ?_⟩, ?_, ?_⟩
  · simp [memDb, Mem.GetRowData, hT]
  · rw [← hdec]
    apply List.map_congr_left
    intro e _
    exact Mem.decodeRow_memDb _ e
  · have := congrArg List.length hdec
    simpa using this
  · intro t s1 hsucc
    rw [hG, hms, hC] at hsucc
    rcases hI : insertRows memDb ⟨doltdb.SchemasTableName, SchemasTableSchema⟩
      ((rows.map Mem.triple).map Mem.row6)
      (Mem.putTable (Mem.removeTable s doltdb.SchemasTableName) doltdb.SchemasTableName
        ⟨SchemasTableSchema, []⟩) with ⟨_ | e, s3⟩
    · rw [hI] at hsucc
      simp only [Prod.mk.injEq, Except.ok.injEq] at hsucc
      obtain ⟨ht, hs1⟩ := hsucc
      subst ht hs1
      obtain ⟨h5, h6, _⟩ := Mem.insertRows_ok_stored
        ⟨doltdb.SchemasTableName, SchemasTableSchema⟩ rfl (rows.map Mem.triple) _ s3 [] hg0 hI
      have h7 : Mem.getTable s3 doltdb.SchemasTableName
          = some ⟨SchemasTableSchema, (rows.map Mem.triple).map Mem.entry6⟩ := by
        simpa using h5
      refine ⟨rfl, rfl, by decide, ⟨(rows.map Mem.triple).map Mem.entry6, ?_, ?_, by simp⟩, ?_⟩
      · simp [memDb, Mem.GetRowData, h7]
      · rw [hmig]
        simp only [List.map_map]
        apply List.map_congr_left
        intro r _
        simp [Mem.decodeRow_memDb, Mem.decode_entry6]
      · have h8 : ((rows.map (fun r => r.take 2)).map
            (fun l => (l.getD 0 Value.null, l.getD 1 Value.null))).Nodup := by
          have h9 : (rows.map (fun r => r.take 2)).map
              (fun l => (l.getD 0 Value.null, l.getD 1 Value.null))
              = (rows.map Mem.triple).map (fun x => (x.1, x.2.1)) := by
            simp only [List.map_map]
            apply List.map_congr_left
            intro r _
            exact (Mem.pair_take2 r).symm
          rw [h9]
          exact h6
        exact List.Nodup.of_map _ h8
    · rw [hI] at hsucc
      simp at hsucc
  · intro hkey hnn
    have hnd : ((rows.map Mem.triple).map (fun x => (x.1, x.2.1))).Nodup := by
      rw [List.map_map]
      apply List.Nodup.map_on _ (List.Nodup.of_map _ hkey)
      intro x hx y hy hxy
      exact List.inj_on_of_nodup_map hkey hx hy (Mem.take2_pair x y (h3 x hx) (h3 y hy) hxy)
    have hnn1 : ∀ x ∈ rows.map Mem.triple, x.1 ≠ Value.null ∧ x.2.1 ≠ Value.null := by
      intro x hx
      obtain ⟨r, hr, hrx⟩ := List.mem_map.mp hx
      subst hrx
      exact hnn r hr
    obtain ⟨s4, h4, _⟩ := Mem.insertRows_distinct ⟨doltdb.SchemasTableName, SchemasTableSchema⟩
      rfl (rows.map Mem.triple) _ [] hg0 hnn1 hnd (by simp)
    refine ⟨⟨doltdb.SchemasTableName, SchemasTableSchema⟩, s4, ?_⟩
    rw [hG, hms, hC, h4]

/-- Claim C3 on the v2 table of `TestV2SchemaTableRecreation`: the call succeeds, and the
handle it returns holds the two migrated rows in the state left behind. -/
theorem migration_complete_witness :
    ∃ (t : Mem.Handle) (s1 : Mem.Root),
      GetOrCreateDoltSchemasTable memDb [("dolt_schemas", Mem.v2Table)] = (Except.ok t, s1)
      ∧ ∃ entries : List Mem.Entry, memDb.GetRowData s1 t = Except.ok entries
        ∧ entries.map (decodeRow memDb t)
          = ([[Value.str "view", Value.str "view1", Value.str "SELECT v1 FROM test;",
                Value.int 1],
              [Value.str "view", Value.str "view2", Value.str "SELECT v2 FROM test;",
                Value.int 2]].map
              (fun r => r.take 3 ++ [epoch, epoch, Value.str ""])).map Except.ok
        ∧ entries.length = 2 :=
  have h := migration_complete [("dolt_schemas", Mem.v2Table)] Mem.v2Table
    [[Value.str "view", Value.str "view1", Value.str "SELECT v1 FROM test;", Value.int 1],
     [Value.str "view", Value.str "view2", Value.str "SELECT v2 FROM test;", Value.int 2]]
    (by rfl) (Or.inr (by decide)) (by rfl)
  match h.2.2 (by decide) (by decide) with
  | ⟨t, s1, hs⟩ => ⟨t, s1, hs, (h.2.1 t s1 hs).2.2.2.1⟩

/-! ## The command `dolt schema tags` -/

section Tags

open schcmds

variable {ρ τ : Type}

/-- A name that is not in the root is not skipped: the loop hands the `nil` table to
`GetSchema`, and what happens next is what `GetSchema` does with it. -/
theorem tagsLoop_missing_table (env : TagsEnv ρ τ) (root : ρ) (name : String)
    (rest : List String) (out : List Printed)
    (h : env.GetTable root name = Except.ok none) :
    tagsLoop env root (name :: rest) out =
      match env.GetSchema none with
      | none => (out, Outcome.panic)
      | some (none, _) => (out, Outcome.panic)
      | some (some sch, some _) =>
        (out ++ sch.map (fun col => Printed.Printf name col.Name col.Tag), Outcome.exit (-1))
      | some (some sch, none) =>
        tagsLoop env root rest (out ++ sch.map (fun col => Printed.Printf name col.Name col.Tag)) := by
  simp only [tagsLoop, h]
  rcases env.GetSchema none with _ | ⟨_ | sch, _ | e⟩ <;> rfl

/-- When `GetSchema` on a `nil` table aborts, returns a `nil` schema or returns an error,
a table list that starts with a name that is not in the root does not end with exit
code 0. -/
theorem tagsLoop_missing_table_fails (env : TagsEnv ρ τ) (root : ρ) (name : String)
    (rest : List String) (out : List Printed)
    (h : env.GetTable root name = Except.ok none)
    (hnil : env.GetSchema none = none ∨ (∃ e, env.GetSchema none = some (none, e))
      ∨ ∃ sch e, env.GetSchema none = some (some sch, some e)) :
    (tagsLoop env root (name :: rest) out).2 ≠ Outcome.exit 0 := by
  rw [tagsLoop_missing_table env root name rest out h]
  rcases hnil with h1 | ⟨e, h1⟩ | ⟨sch, e, h1⟩ <;> rw [h1] <;> simp

/-- Claim C11 fails on the code.  On a working root whose only table is `people`, the table
list `["nosuch", "people"]` makes `TagsCmd.Exec` abort with a nil dereference before it
prints anything: the flag `ok` of `root.GetTable` is dropped and `GetSchema` is called
on the `nil` table.  The documentation promises the three lines of `people`
(`expectedLines`) and exit code 0, which is what the command gives for `["people"]`
alone.  With the missing name last, the lines of `people` are printed and then the
program aborts. -/
theorem tags_missing_table_aborts :
    peopleRoot.lookup "nosuch" = none
    ∧ Exec (memTagsEnv peopleRoot) ["nosuch", "people"] = ([], Outcome.panic)
    ∧ expectedLines peopleRoot ["nosuch", "people"]
      = [Printed.Printf "people" "last" 1, Printed.Printf "people" "first" 0,
         Printed.Printf "people" "middle" 2]
    ∧ Exec (memTagsEnv peopleRoot) ["people"]
      = ([Printed.Printf "people" "last" 1, Printed.Printf "people" "first" 0,
          Printed.Printf "people" "middle" 2], Outcome.exit 0)
    ∧ Exec (memTagsEnv peopleRoot) ["people", "nosuch"]
      = ([Printed.Printf "people" "last" 1, Printed.Printf "people" "first" 0,
          Printed.Printf "people" "middle" 2], Outcome.panic) := by
  refine ⟨by rfl, by rfl, by rfl, by rfl, by rfl⟩

end Tags

/-! ## The bulk load -/

section BulkLoad

variable {σ ρ τ ε δ : Type}

/-- The insert loop over a list put together from two: the loop over the first part and,
when that did not fail, the loop over the second from the state the first left. -/
theorem insertRows_append (db : Database σ ρ τ ε δ) (tbl : τ) :
    ∀ (xs ys : List sql.Row) (s : σ),
      insertRows db tbl (xs ++ ys) s =
        match insertRows db tbl xs s with
        | (some err, s1) => (some err, s1)
        | (none, s1) => insertRows db tbl ys s1 := by
  intro xs
  induction xs with
  | nil => intro ys s; simp [insertRows]
  | cons x xs ih =>
    intro ys s
    simp only [List.cons_append, insertRows]
    rcases db.Insert s tbl x with ⟨_ | e, s1⟩
    · exact ih ys s1
    · rfl

/-- An insert loop in which every `Insert` succeeds logs one `Insert` per row, in order. -/
theorem insertRows_traced_ok (db : Database σ ρ τ ε δ) (tbl : τ) :
    ∀ (rows : List sql.Row) (s s1 : σ) (log : List (Call ρ τ)),
      insertRows db tbl rows s = (none, s1) →
      insertRows (traced db) tbl rows (s, log)
        = (none, (s1, log ++ rows.map (Call.Insert tbl))) := by
  intro rows
  induction rows with
  | nil =>
    intro s s1 log h
    simp only [insertRows, Prod.mk.injEq, true_and] at h
    subst h
    simp [insertRows]
  | cons r rs ih =>
    intro s s1 log h
    simp only [insertRows] at h
    rcases hi : db.Insert s tbl r with ⟨_ | e, s2⟩
    · rw [hi] at h
      simp only at h
      have h2 := ih s2 s1 (log ++ [Call.Insert tbl r]) h
      simp only [insertRows, traced, hi]
      simp only [traced] at h2
      rw [h2]
      simp
    · rw [hi] at h
      simp at h

/-- Either every `Insert` of the loop succeeds, or the rows split at the first one that
fails. -/
theorem insertRows_cases (db : Database σ ρ τ ε δ) (tbl : τ) :
    ∀ (rows : List sql.Row) (s : σ),
      (∃ s1, insertRows db tbl rows s = (none, s1))
      ∨ ∃ (pre : List sql.Row) (bad : sql.Row) (post : List sql.Row) (s1 : σ) (err : Err),
          rows = pre ++ bad :: post ∧ insertRows db tbl pre s = (none, s1)
          ∧ (db.Insert s1 tbl bad).1 = some err := by
  intro rows
  induction rows with
  | nil => intro s; exact Or.inl ⟨s, rfl⟩
  | cons r rs ih =>
    intro s
    rcases hi : db.Insert s tbl r with ⟨_ | e, s2⟩
    · rcases ih s2 with ⟨s1, h1⟩ | ⟨pre, bad, post, s1, err, h1, h2, h3⟩
      · left
        exact ⟨s1, by simp only [insertRows, hi, h1]⟩
      · right
        refine ⟨r :: pre, bad, post, s1, err, by simp [h1], ?_, h3⟩
        simp only [insertRows, hi, h2]
    · right
      exact ⟨[], r, rs, s, e, rfl, rfl, by rw [hi]⟩

/-- A logged run of `Insert` calls has no `Close` in it. -/
theorem filter_isClose_inserts (tbl : τ) (rows : List sql.Row) :
    ((rows.map (Call.Insert tbl) : List (Call ρ τ)).filter Call.isClose) = [] := by
  induction rows with
  | nil => rfl
  | cons r rs ih => simp [List.filter, Call.isClose, ih]

/-- The bulk load when every `Insert` succeeds: its result is the result of `Close`, and the
log gains the opening of the inserter, one `Insert` per row in list order, and one
`Close`. -/
theorem bulkInsert_all_inserted (db : Database σ ρ τ ε δ) (tbl : τ) (s s1 : σ)
    (log : List (Call ρ τ)) (rows : List sql.Row)
    (h : insertRows db tbl rows (db.Inserter s tbl) = (none, s1)) :
    bulkInsert db tbl rows s = db.Close s1 tbl
    ∧ bulkInsert (traced db) tbl rows (s, log)
      = ((db.Close s1 tbl).1, ((db.Close s1 tbl).2,
          log ++ [Call.Inserter tbl] ++ rows.map (Call.Insert tbl) ++ [Call.Close tbl])) := by
  constructor
  · simp only [bulkInsert, h]
  · have h2 := insertRows_traced_ok db tbl rows (db.Inserter s tbl) s1
      (log ++ [Call.Inserter tbl]) h
    have hI : (traced db).Inserter (s, log) tbl
        = (db.Inserter s tbl, log ++ [Call.Inserter tbl]) := rfl
    simp only [bulkInsert, hI, h2]
    rfl

/-- The bulk load when an `Insert` fails after the rows before it were inserted: its result
is the error of that `Insert`, whatever `Close` returns; the rows after it are not
inserted; `Close` is still called, once. -/
theorem bulkInsert_first_failure (db : Database σ ρ τ ε δ) (tbl : τ) (s s1 : σ)
    (log : List (Call ρ τ)) (pre : List sql.Row) (bad : sql.Row) (post : List sql.Row)
    (err : Err)
    (h : insertRows db tbl pre (db.Inserter s tbl) = (none, s1))
    (hbad : (db.Insert s1 tbl bad).1 = some err) :
    bulkInsert db tbl (pre ++ bad :: post) s
      = (some err, (db.Close (db.Insert s1 tbl bad).2 tbl).2)
    ∧ bulkInsert (traced db) tbl (pre ++ bad :: post) (s, log)
      = (some err, ((db.Close (db.Insert s1 tbl bad).2 tbl).2,
          log ++ [Call.Inserter tbl] ++ (pre ++ [bad]).map (Call.Insert tbl)
            ++ [Call.Close tbl])) := by
  have hi : db.Insert s1 tbl bad = (some err, (db.Insert s1 tbl bad).2) := by
    rw [← hbad]
  constructor
  · have h1 : insertRows db tbl (pre ++ bad :: post) (db.Inserter s tbl)
        = (some err, (db.Insert s1 tbl bad).2) := by
      rw [insertRows_append, h]
      simp only [insertRows]
      rw [hi]
    simp only [bulkInsert, h1]
  · have h2 := insertRows_traced_ok db tbl pre (db.Inserter s tbl) s1
      (log ++ [Call.Inserter tbl]) h
    have hI : (traced db).Inserter (s, log) tbl
        = (db.Inserter s tbl, log ++ [Call.Inserter tbl]) := rfl
    have hT : (traced db).Insert (s1, log ++ [Call.Inserter tbl] ++ pre.map (Call.Insert tbl))
        tbl bad
        = (some err, ((db.Insert s1 tbl bad).2,
            log ++ [Call.Inserter tbl] ++ pre.map (Call.Insert tbl) ++ [Call.Insert tbl bad])) := by
      simp only [traced, hbad]
    have h1 : insertRows (traced db) tbl (pre ++ bad :: post)
        (db.Inserter s tbl, log ++ [Call.Inserter tbl])
        = (some err, ((db.Insert s1 tbl bad).2,
            log ++ [Call.Inserter tbl] ++ pre.map (Call.Insert tbl) ++ [Call.Insert tbl bad])) := by
      rw [insertRows_append, h2]
      simp only [insertRows]
      rw [hT]
    simp only [bulkInsert, hI, h1]
    simp [traced]

/-- Without rows to add, the second half of `GetOrCreateDoltSchemasTable` logs the call of
`createDoltTable` and nothing else. -/
theorem createAndLoad_nil_log (db : Database σ ρ τ ε δ) (root : ρ) (s : σ)
    (log : List (Call ρ τ)) :
    (createAndLoad (traced db) root [] (s, log)).2.2
      = log ++ [Call.createDoltTable doltdb.SchemasTableName root SchemasTableSchema] := by
  have hc : (traced db).createDoltTable (s, log) doltdb.SchemasTableName root SchemasTableSchema
      = ((db.createDoltTable s doltdb.SchemasTableName root SchemasTableSchema).1,
          ((db.createDoltTable s doltdb.SchemasTableName root SchemasTableSchema).2,
            log ++ [Call.createDoltTable doltdb.SchemasTableName root SchemasTableSchema])) :=
    rfl
  unfold createAndLoad
  rw [hc]
  rcases (db.createDoltTable s doltdb.SchemasTableName root SchemasTableSchema).1 with _ | e
  · simp only
    rcases (traced db).GetRoot
      ((db.createDoltTable s doltdb.SchemasTableName root SchemasTableSchema).2,
        log ++ [Call.createDoltTable doltdb.SchemasTableName root SchemasTableSchema])
      with e | root1
    · rfl
    · simp only
      rcases (traced db).GetTableInsensitiveWithRoot
        ((db.createDoltTable s doltdb.SchemasTableName root SchemasTableSchema).2,
          log ++ [Call.createDoltTable doltdb.SchemasTableName root SchemasTableSchema])
        root1 doltdb.SchemasTableName with e | _ | t
      · rfl
      · rfl
      · rfl
  · rfl

/-- Claim C12.  In the insert phase of `GetOrCreateDoltSchemasTable` (lines 127-148), for
every database, table handle and state:

* when every `Insert` succeeds, the result of the bulk load is the result of `Close`, and
  the calls made are `Inserter`, one `Insert` per row in list order, and `Close`;
* when an `Insert` fails after the rows before it were inserted, the result is the error
  of that `Insert`, whatever `Close` returns, and the calls made are `Inserter`, the
  `Insert` of the rows up to and including the failing one, and `Close`: the rows after
  it are not inserted;
* every list of rows is in one of these two cases;
* on every path exactly one `Close` is logged;
* for a non-empty list of rows, once the table was created and found, the call returns
  the error of the bulk load when there is one and the handle otherwise, so it returns
  the handle only when every `Insert` and the `Close` succeeded;
* for the empty list no inserter is opened: the only call logged is `createDoltTable`. -/
theorem bulk_load_error_surfacing (db : Database σ ρ τ ε δ) (tbl : τ) (s : σ)
    (log : List (Call ρ τ)) :
    (∀ (rows : List sql.Row) (s1 : σ),
        insertRows db tbl rows (db.Inserter s tbl) = (none, s1) →
        bulkInsert db tbl rows s = db.Close s1 tbl
        ∧ bulkInsert (traced db) tbl rows (s, log)
          = ((db.Close s1 tbl).1, ((db.Close s1 tbl).2,
              log ++ [Call.Inserter tbl] ++ rows.map (Call.Insert tbl) ++ [Call.Close tbl])))
    ∧ (∀ (pre : List sql.Row) (bad : sql.Row) (post : List sql.Row) (s1 : σ) (err : Err),
        insertRows db tbl pre (db.Inserter s tbl) = (none, s1) →
        (db.Insert s1 tbl bad).1 = some err →
        bulkInsert db tbl (pre ++ bad :: post) s
          = (some err, (db.Close (db.Insert s1 tbl bad).2 tbl).2)
        ∧ bulkInsert (traced db) tbl (pre ++ bad :: post) (s, log)
          = (some err, ((db.Close (db.Insert s1 tbl bad).2 tbl).2,
              log ++ [Call.Inserter tbl] ++ (pre ++ [bad]).map (Call.Insert tbl)
                ++ [Call.Close tbl])))
    ∧ (∀ rows : List sql.Row,
        (∃ s1, insertRows db tbl rows (db.Inserter s tbl) = (none, s1))
        ∨ ∃ (pre : List sql.Row) (bad : sql.Row) (post : List sql.Row) (s1 : σ) (err : Err),
            rows = pre ++ bad :: post
            ∧ insertRows db tbl pre (db.Inserter s tbl) = (none, s1)
            ∧ (db.Insert s1 tbl bad).1 = some err)
    ∧ (∀ rows : List sql.Row, ∃ new : List (Call ρ τ),
        (bulkInsert (traced db) tbl rows (s, log)).2.2 = log ++ new
        ∧ (new.filter Call.isClose).length = 1)
    ∧ (∀ (root root2 : ρ) (rows : List sql.Row) (s0 : σ), rows ≠ [] →
        db.createDoltTable s0 doltdb.SchemasTableName root SchemasTableSchema = (none, s) →
        db.GetRoot s = Except.ok root2 →
        db.GetTableInsensitiveWithRoot s root2 doltdb.SchemasTableName
          = Except.ok (some tbl) →
        (∀ (err : Err) (s3 : σ), bulkInsert db tbl rows s = (some err, s3) →
          createAndLoad db root rows s0 = (Except.error err, s3))
        ∧ (∀ s3 : σ, bulkInsert db tbl rows s = (none, s3) →
          createAndLoad db root rows s0 = (Except.ok tbl, s3))
        ∧ (∀ (t : τ) (s3 : σ), createAndLoad db root rows s0 = (Except.ok t, s3) →
          t = tbl ∧ ∃ s1, insertRows db tbl rows (db.Inserter s tbl) = (none, s1)
            ∧ db.Close s1 tbl = (none, s3)))
    ∧ (∀ root : ρ, (createAndLoad (traced db) root [] (s, log)).2.2
        = log ++ [Call.createDoltTable doltdb.SchemasTableName root SchemasTableSchema]) := by
  refine ⟨?_, ?_, ?_, ?_, ?_, ?_⟩
  · intro rows s1 h
    exact bulkInsert_all_inserted db tbl s s1 log rows h
  · intro pre bad post s1 err h hbad
    exact bulkInsert_first_failure db tbl s s1 log pre bad post err h hbad
  · intro rows
    exact insertRows_cases db tbl rows (db.Inserter s tbl)
  · intro rows
    rcases insertRows_cases db tbl rows (db.Inserter s tbl) with
      ⟨s1, h⟩ | ⟨pre, bad, post, s1, err, hrows, h, hbad⟩
    · refine ⟨[Call.Inserter tbl] ++ rows.map (Call.Insert tbl) ++ [Call.Close tbl], ?_, ?_⟩
      · rw [(bulkInsert_all_inserted db tbl s s1 log rows h).2]
        simp
      · simp [List.filter_append, filter_isClose_inserts, List.filter, Call.isClose]
    · subst hrows
      refine ⟨[Call.Inserter tbl] ++ (pre ++ [bad]).map (Call.Insert tbl) ++ [Call.Close tbl],
        ?_, ?_⟩
      · rw [(bulkInsert_first_failure db tbl s s1 log pre bad post err h hbad).2]
        simp
      · simp [List.filter_append, filter_isClose_inserts, List.filter, Call.isClose]
  · intro root root2 rows s0 hrows hc hr ht
    have hlen : ¬ rows.length = 0 := fun h => hrows (List.length_eq_zero.mp h)
    have hcl : createAndLoad db root rows s0 =
        match bulkInsert db tbl rows s with
        | (some err, s2) => (Except.error err, s2)
        | (none, s2) => (Except.ok tbl, s2) := by
      simp [createAndLoad, hc, hr, ht, hlen]
    refine ⟨?_, ?_, ?_⟩
    · intro err s3 h
      rw [hcl, h]
    · intro s3 h
      rw [hcl, h]
    · intro t s3 h
      rw [hcl] at h
      rcases hb : bulkInsert db tbl rows s with ⟨_ | e, s4⟩
      · rw [hb] at h
        simp only [Prod.mk.injEq, Except.ok.injEq] at h
        obtain ⟨h1, h2⟩ := h
        subst h1 h2
        refine ⟨rfl, ?_⟩
        rcases insertRows_cases db tbl rows (db.Inserter s tbl) with
          ⟨s1, hi⟩ | ⟨pre, bad, post, s1, err, hrows1, hi, hbad⟩
        · refine ⟨s1, hi, ?_⟩
          rw [← (bulkInsert_all_inserted db tbl s s1 log rows hi).1, hb]
        · subst hrows1
          rw [(bulkInsert_first_failure db tbl s s1 log pre bad post err hi hbad).1] at hb
          simp at hb
      · rw [hb] at h
        simp at h
  · intro root
    exact createAndLoad_nil_log db root s log

/-- Claim C12 on the in-memory database that refuses duplicate keys: of three rows, the
second repeats the key of the first.  The first two are passed to `Insert`, the third
is not, `Close` is called once, and the result is the error of the second `Insert`. -/
theorem bulk_load_error_surfacing_witness :
    bulkInsert (traced memDb) ⟨"dolt_schemas", SchemasTableSchema⟩
        [Mem.row6 (Value.str "view", Value.str "v", Value.str "SELECT 1;"),
         Mem.row6 (Value.str "view", Value.str "v", Value.str "SELECT 2;"),
         Mem.row6 (Value.str "view", Value.str "w", Value.str "SELECT 3;")]
        ([("dolt_schemas", ⟨SchemasTableSchema, []⟩)], [])
      = (some (Err.other "duplicate primary key given"),
          ([("dolt_schemas", ⟨SchemasTableSchema,
              [Mem.entry6 (Value.str "view", Value.str "v", Value.str "SELECT 1;")]⟩)],
           [Call.Inserter ⟨"dolt_schemas", SchemasTableSchema⟩,
            Call.Insert ⟨"dolt_schemas", SchemasTableSchema⟩
              (Mem.row6 (Value.str "view", Value.str "v", Value.str "SELECT 1;")),
            Call.Insert ⟨"dolt_schemas", SchemasTableSchema⟩
              (Mem.row6 (Value.str "view", Value.str "v", Value.str "SELECT 2;")),
            Call.Close ⟨"dolt_schemas", SchemasTableSchema⟩])) :=
  ((bulk_load_error_surfacing memDb
      ⟨"dolt_schemas", SchemasTableSchema⟩
      [("dolt_schemas", ⟨SchemasTableSchema, []⟩)] []).2.1
    [Mem.row6 (Value.str "view", Value.str "v", Value.str "SELECT 1;")]
    (Mem.row6 (Value.str "view", Value.str "v", Value.str "SELECT 2;"))
    [Mem.row6 (Value.str "view", Value.str "w", Value.str "SELECT 3;")]
    [("dolt_schemas", ⟨SchemasTableSchema,
      [Mem.entry6 (Value.str "view", Value.str "v", Value.str "SELECT 1;")]⟩)]
    (Err.other "duplicate primary key given") (by rfl) (by rfl)).2

end BulkLoad

end Dolt
